import Mathlib

/-!
Verification development for the idnits Internet-Draft / RFC nit checker.

The JavaScript sources are embedded shallowly:
* pure string processing is translated to executable functions over
  `List Char` (JS strings are scanned character by character by the
  regexes involved, so a character-list model is the direct image);
* the module-level mutable `lastIndex` of the one global regex that the
  TXT parser consults with `RegExp.test` across lines
  (`SUBSECTION_PATTERN`, declared with the `g` flag) is threaded as
  explicit state;
* fallible code (paths that can throw `TypeError` in JS, and the
  `try/catch` blocks producing `TXT_PARSING_FAILED` / `XML_PARSING_FAILED`)
  returns `Except String`;
* network helpers that live outside the sources (remote RFC info,
  remote draft info, the downref registry, the RFC status hierarchy and
  the mode table) are parameters of the validators, typed after the
  spec's interface description.

Only document fields that some validator or claim reads are carried in
the document model; the dropped extraction passes of the TXT parser
(IPv4/IPv6/FQDN capture, RFC 2119 keyword logging, spacing/inline-code
issues, boilerplate matching, license detection) write exclusively to
their own output lists and never read or write the header, marker,
section or reference state modelled here, so dropping them does not
disturb any embedded field.
-/

/-! ## Character and string utilities -/

/-- The ASCII whitespace characters recognised by the JS `\s` class and
`String.trim` on the inputs considered here (space, tab, newline,
carriage return, form feed, vertical tab). -/
def isWsChar (c : Char) : Bool :=
  c = ' ' || c = '\t' || c = '\n' || c = '\r' || c = Char.ofNat 12 || c = Char.ofNat 11

def isDigitChar (c : Char) : Bool :=
  '0' ≤ c && c ≤ '9'

def isAlphaChar (c : Char) : Bool :=
  ('a' ≤ c && c ≤ 'z') || ('A' ≤ c && c ≤ 'Z')

/-- JS word character (`\w`, used for the `\b` boundary): letters, digits,
underscore. -/
def isWordChar (c : Char) : Bool :=
  isAlphaChar c || isDigitChar c || c = '_'

def lowerChar (c : Char) : Char :=
  if 'A' ≤ c && c ≤ 'Z' then Char.ofNat (c.toNat + 32) else c

def lowerStr (cs : List Char) : List Char :=
  cs.map lowerChar

/-- `String.prototype.trim`. -/
def trimChars (cs : List Char) : List Char :=
  ((cs.dropWhile isWsChar).reverse.dropWhile isWsChar).reverse

/-- Decimal digits to a number (`parseInt(s, 10)` on an all-digit string). -/
def digitsToNat (cs : List Char) : Nat :=
  cs.foldl (fun acc c => acc * 10 + (c.toNat - '0'.toNat)) 0

def listStartsWith (p cs : List Char) : Bool :=
  decide (p <+: cs)

/-- JS `String.prototype.includes` (substring test). -/
def listContainsSub (p cs : List Char) : Bool :=
  (List.range (cs.length + 1)).any (fun i => listStartsWith p (cs.drop i))

/-- Case-insensitive substring test. -/
def containsSubCI (p cs : List Char) : Bool :=
  listContainsSub (lowerStr p) (lowerStr cs)

/-- JS `String.prototype.split(sep)` for a one-character separator:
splits at every occurrence, keeping empty pieces. -/
def splitOnChar (sep : Char) (cs : List Char) : List (List Char) :=
  match cs with
  | [] => [[]]
  | c :: rest =>
    let r := splitOnChar sep rest
    if c = sep then [] :: r
    else
      match r with
      | [] => [[c]]
      | h :: t => (c :: h) :: t

/-! ## Findings, severities, modes -/

/-- Modelled from the spec: `Mode` is the enum
`{NORMAL, FORGIVE_CHECKLIST, SUBMISSION}` exported by
`lib/config/modes.mjs` (file not under `src/`); it "governs severity
escalation/suppression uniformly". -/
inductive Mode where
  | normal
  | forgiveChecklist
  | submission
deriving DecidableEq, Repr

/-- Modelled from the spec: the three `Finding` variants
`{Error, Warning, Comment}` implemented by the `ValidationError`,
`ValidationWarning` and `ValidationComment` classes of
`lib/helpers/error.mjs` (file not under `src/`). -/
inductive Severity where
  | error
  | warning
  | comment
deriving DecidableEq, Repr

structure LinePos where
  line : Nat
  pos : Nat
deriving DecidableEq, Repr

/-- Modelled from the spec: a Finding has a stable code (`name`), a
`message`, an optional `refUrl` and optional `lines`; these are exactly
the fields the CLI reads off the objects returned by the validators. -/
structure Finding where
  severity : Severity
  name : String
  message : String
  refUrl : Option String := none
  lines : Option (List LinePos) := none
deriving DecidableEq, Repr

/-- `new ValidationError(name, message, { ref })`. -/
def mkError (name message : String) (ref : Option String := none) : Finding :=
  { severity := .error, name := name, message := message, refUrl := ref }

def mkWarning (name message : String) (ref : Option String := none) : Finding :=
  { severity := .warning, name := name, message := message, refUrl := ref }

def mkComment (name message : String) (ref : Option String := none) : Finding :=
  { severity := .comment, name := name, message := message, refUrl := ref }

/-- The number of Error-severity findings in a result list (the quantity
the spec's pass/fail sentence is about). -/
def errorFindingCount (res : List Finding) : Nat :=
  (res.filter (fun f => f.severity = Severity.error)).length

/-! ## CLI JSON output (`cli.mjs`, `case 'json'`)

The switch arm serialises
`{ result: result.length > 0 ? 'fail' : 'pass',
   file: { path: docPath, size: 0 },
   nits: result.map(r => ({ code: r.name, desc: r.message,
                            ...r.refUrl && { ref: r.refUrl },
                            ...r.lines && { line: r.lines } })) }`.
-/

structure JsonFileInfo where
  path : String
  size : Nat
deriving DecidableEq, Repr

structure JsonNit where
  code : String
  desc : String
  ref : Option String
  line : Option (List LinePos)
deriving DecidableEq, Repr

structure JsonOutput where
  result : String
  file : JsonFileInfo
  nits : List JsonNit
deriving DecidableEq, Repr

/-- `...r.refUrl && { ref: r.refUrl }`: the spread keeps the key only when
the value is truthy, so an empty string is dropped like a missing one. -/
def truthyStr (s : Option String) : Option String :=
  match s with
  | some v => if v = "" then none else some v
  | none => none

def findingToNit (r : Finding) : JsonNit :=
  { code := r.name
    desc := r.message
    ref := truthyStr r.refUrl
    line := r.lines }

/-- The CLI's JSON output case, as a function of the resolved document
path and the merged finding list returned by the validation run. -/
def jsonOutput (docPath : String) (result : List Finding) : JsonOutput :=
  { result := if result.length > 0 then "fail" else "pass"
    file := { path := docPath, size := 0 }
    nits := result.map findingToNit }

/-! ## XML structural adapter (`parse-xml.mjs`)

`const externalEntityRgx = /<!ENTITY\s+([a-zA-Z0-9-._]+)\s+(SYSTEM|PUBLIC)\s+"(.*)">/g`
and `rawText.replaceAll(externalEntityRgx, cb)` collecting
`{original, name, type, url}` and replacing each match by the empty
string, before handing the remaining text to the external
`fast-xml-parser` (a collaborator outside the sources, modelled as a
function parameter). -/

structure ExternalEntity where
  original : String
  name : String
  type : String
  url : String
deriving DecidableEq, Repr

/-- Characters of the entity-name class `[a-zA-Z0-9-._]`. -/
def isEntityNameChar (c : Char) : Bool :=
  isAlphaChar c || isDigitChar c || c = '-' || c = '.' || c = '_'

/-- Try to match the entity regex at the head of `cs`.  `\s+` may span
newlines; the greedy `(.*)` url group cannot, so it extends to the last
`">` lying on the same line as the opening quote.  Returns the captured
entity and the unconsumed suffix. -/
def matchEntityAt (cs : List Char) : Option (ExternalEntity × List Char) := do
  let r0 ← if listStartsWith "<!ENTITY".toList cs then some (cs.drop 8) else none
  let (ws1, r1) := r0.span isWsChar
  if ws1.isEmpty then none else
  let (nm, r2) := r1.span isEntityNameChar
  if nm.isEmpty then none else
  let (ws2, r3) := r2.span isWsChar
  if ws2.isEmpty then none else
  let (ty, r4) ←
    if listStartsWith "SYSTEM".toList r3 then some ("SYSTEM", r3.drop 6)
    else if listStartsWith "PUBLIC".toList r3 then some ("PUBLIC", r3.drop 6)
    else none
  let (ws3, r5) := r4.span isWsChar
  if ws3.isEmpty then none else
  let r6 ← match r5 with
           | '"' :: t => some t
           | _ => none
  let sameLine := r6.takeWhile (fun c => c ≠ '\n')
  let j ← ((List.range (sameLine.length + 1)).filter
      (fun j => (r6.drop j).take 2 = ['"', '>'])).getLast?
  let rest := r6.drop (j + 2)
  let matchedLen := cs.length - rest.length
  some ({ original := String.mk (cs.take matchedLen)
          name := String.mk nm
          type := ty
          url := String.mk (r6.take j) }, rest)

/-- `replaceAll` with the global entity regex: leftmost, non-overlapping
matches are collected in order and deleted; all other characters pass
through.  `fuel` bounds the recursion (each step consumes at least one
character). -/
def scanEntities : Nat → List Char → (List ExternalEntity × List Char)
  | 0, cs => ([], cs)
  | _ + 1, [] => ([], [])
  | fuel + 1, c :: rest =>
    match matchEntityAt (c :: rest) with
    | some (e, after) =>
      let (es, out) := scanEntities fuel after
      (e :: es, out)
    | none =>
      let (es, out) := scanEntities fuel rest
      (es, c :: out)

/-- The entities recorded for a raw XML text. -/
def xmlExternalEntities (rawText : String) : List ExternalEntity :=
  (scanEntities rawText.toList.length rawText.toList).1

/-- The text delegated to the external XML parser after stripping. -/
def xmlCleanRawText (rawText : String) : String :=
  String.mk (scanEntities rawText.toList.length rawText.toList).2

structure XmlDoc (α : Type) where
  filename : String
  externalEntities : List ExternalEntity
  data : α

/-- `parse(rawText, filename)` of the XML adapter.  `xmlParserFn` stands
for `new XMLParser(...).parse`; a parser exception is converted to
`ValidationError('XML_PARSING_FAILED', err.message)`, modelled as the
error pair (code, message). -/
def parseXmlDoc {α : Type} (xmlParserFn : String → Except String α)
    (rawText filename : String) : Except (String × String) (XmlDoc α) :=
  match xmlParserFn (xmlCleanRawText rawText) with
  | .error msg => .error ("XML_PARSING_FAILED", msg)
  | .ok data =>
    .ok { filename := filename
          externalEntities := xmlExternalEntities rawText
          data := data }

/-! ## Document model shared by the validators

The reference validators read `doc.type`, the TXT extraction buckets
`doc.data.extractedElements.referenceSectionRfc` /
`referenceSectionDraftReferences`, and on XML documents the chain
`doc.data.rfc.back.references.references`. -/

/-- The reference subsection recorded by the TXT parser in
`currentSubSection` (`null` when no reference subsection is active). -/
inductive SubsectionKind where
  | normativeReferences
  | informativeReferences
  | unclassifiedReferences
deriving DecidableEq, Repr

/-- An element of `referenceSectionRfc` / `referenceSectionDraftReferences`:
`{ value, subsection }`. -/
structure RefEntry where
  value : String
  subsection : Option SubsectionKind
deriving DecidableEq, Repr

structure ExtractedElements where
  nonReferenceSectionRfc : List String := []
  referenceSectionRfc : List RefEntry := []
  nonReferenceSectionDraftReferences : List String := []
  referenceSectionDraftReferences : List RefEntry := []
deriving DecidableEq, Repr

/-- `<reference>` element: `ref._attr && ref._attr.anchor` collapses to an
optional anchor. -/
structure XmlRef where
  anchor : Option String
deriving DecidableEq, Repr

/-- One entry of `doc.data.rfc.back.references.references`; `reference`
is skipped unless it is an array. -/
structure XmlRefSection where
  reference : Option (List XmlRef)
deriving DecidableEq, Repr

/-- The XML data accessed by the validators.  `refSections = none` models
any break in the path `data.rfc.back.references.references`, whose
access throws a `TypeError` in JS. -/
structure XmlValidatorData where
  refSections : Option (List XmlRefSection)
deriving DecidableEq, Repr

/-- The `{TXT, XML}` document union as seen by the validators (the TXT
branch carries the only TXT field they read, `data.extractedElements`). -/
inductive ValDoc where
  | txt (extractedElements : ExtractedElements)
  | xml (d : XmlValidatorData)
deriving DecidableEq, Repr

/-- Modelled from the spec: Remote RFC Info Lookup
(`fetchRemoteRfcInfo` of `lib/helpers/remote.mjs`, not under `src/`):
"RFC number → {status?, obsoleted_by:[string], updated_by:[string]} or
absent"; the `rfc` echo field is read by the validators when building
reference URLs and may be absent. -/
structure RfcInfo where
  rfc : Option String := none
  status : Option String := none
  obsoleted_by : List String := []
  updated_by : List String := []
deriving DecidableEq, Repr

/-- Modelled from the spec: Remote Draft Info Lookup
(`fetchRemoteDocInfoJson`, not under `src/`): "draft name → {state?} or
absent". -/
structure DraftInfo where
  state : Option String := none
deriving DecidableEq, Repr

/-- `RFC_NUMBER_REG = /^\d+$/`. -/
def rfcNumberTest (s : String) : Bool :=
  !s.toList.isEmpty && s.toList.all isDigitChar

/-- `s.replace(/^\[|\]$/g, '')`: strips one leading `[` and one
trailing `]`, when present. -/
def stripRefBrackets (cs : List Char) : List Char :=
  let a := match cs with
           | '[' :: t => t
           | _ => cs
  match a.reverse with
  | ']' :: t => t.reverse
  | _ => a

/-- The version-suffix replace of `normalizeDraftReferences` (pattern
dash–digit–digit anchored at the end, replaced by the empty string):
drops a trailing `-NN`. -/
def stripVersionSuffix (cs : List Char) : List Char :=
  match cs.reverse with
  | d1 :: d2 :: '-' :: t =>
    if isDigitChar d1 && isDigitChar d2 then t.reverse else cs
  | _ => cs

/-- `normalizeDraftReferences` of `downref.mjs`. -/
def normalizeDraftReferences (references : List String) : List String :=
  ((references.map (fun ref =>
      String.mk (stripVersionSuffix (stripRefBrackets ref.toList)))).filter
    (fun ref => containsSubCI "draft".toList ref.toList))

/-- `extractDefinedReferences` of `lib/helpers/utils.mjs`. -/
def extractDefinedReferences (referencesSections : List XmlRefSection) : List String :=
  referencesSections.flatMap (fun sec =>
    match sec.reference with
    | some refs => refs.filterMap (·.anchor)
    | none => [])

/-- First maximal digit run (`s.match(/\d+/)[0]`). -/
def firstDigitRun (cs : List Char) : List Char :=
  (cs.dropWhile (fun c => !isDigitChar c)).takeWhile isDigitChar

/-- `/^RFC\d+$/i.test(ref)`. -/
def rfcAnchorTest (cs : List Char) : Bool :=
  match lowerStr cs with
  | 'r' :: 'f' :: 'c' :: rest => !rest.isEmpty && rest.all isDigitChar
  | _ => false

/-- `normalizeXmlReferences` of `downref.mjs`. -/
def normalizeXmlReferences (references : List String) : List String :=
  references.flatMap (fun ref =>
    if rfcAnchorTest ref.toList then
      ["RFC " ++ String.mk (firstDigitRun ref.toList)]
    else if containsSubCI "draft".toList ref.toList then
      [String.mk (stripVersionSuffix (stripRefBrackets (trimChars ref.toList)))]
    else [])

def datatrackerUrl (m : String) : String :=
  "https://datatracker.ietf.org/doc/" ++ m

def rfcEditorUrl (num : String) : String :=
  "https://www.rfc-editor.org/info/rfc" ++ num

/-- `https://www.rfc-editor.org/info/rfc${rfcInfo.rfc}` — an absent `rfc`
field renders as the string `undefined` in the JS template. -/
def rfcEditorInfoUrl (rfc : Option String) : String :=
  rfcEditorUrl (rfc.getD "undefined")

/-- The per-match body of the `downrefMatches.forEach` switch (no
`SUBMISSION` arm exists, so that mode pushes nothing). -/
def downrefFinding (mode : Mode) (m : String) : List Finding :=
  match mode with
  | .normal => [mkError "DOWNREF_DRAFT"
      ("Draft " ++ m ++ " is listed in the Downref Registry.") (some (datatrackerUrl m))]
  | .forgiveChecklist => [mkWarning "DOWNREF_DRAFT"
      ("Draft " ++ m ++ " is listed in the Downref Registry.") (some (datatrackerUrl m))]
  | .submission => []

/-- `validateDownrefs` of `downref.mjs`.  `downrefOracle` stands for the
external `checkReferencesInDownrefs` registry lookup. -/
def validateDownrefs (downrefOracle : List String → List String)
    (doc : ValDoc) (mode : Mode) : Except String (List Finding) :=
  if mode = Mode.submission then .ok [] else
  match doc with
  | .txt ee =>
    let rfcs := ee.referenceSectionRfc.map (fun rfc => "RFC " ++ rfc.value)
    let drafts := normalizeDraftReferences (ee.referenceSectionDraftReferences.map (·.value))
    .ok ((downrefOracle (rfcs ++ drafts)).flatMap (downrefFinding mode))
  | .xml d =>
    match d.refSections with
    | none => .error "TypeError"
    | some secs =>
      let normalized := normalizeXmlReferences (extractDefinedReferences secs)
      .ok ((downrefOracle normalized).flatMap (downrefFinding mode))

/-- The body of the per-reference loop of `validateNormativeReferences`
(`gsw` stands for `getStatusWeight` of `lib/config/rfc-status-hierarchy.mjs`,
not under `src/`; modelled from the spec as the ranked-hierarchy weight
lookup, `none` on an unrecognised status). -/
def normativeRfcFindings (gsw : String → Option Nat)
    (rfcOracle : String → Option RfcInfo) (mode : Mode) (rfcNum : String) :
    List Finding :=
  match rfcOracle rfcNum with
  | none => [mkComment "UNDEFINED_STATUS"
      ("RFC " ++ rfcNum ++ " does not have a defined status or could not be fetched.")
      (some (rfcEditorUrl rfcNum))]
  | some info =>
    match info.status with
    | none => [mkComment "UNDEFINED_STATUS"
        ("RFC " ++ rfcNum ++ " does not have a defined status or could not be fetched.")
        (some (rfcEditorUrl rfcNum))]
    | some st =>
      (if gsw st = none then
        [mkComment "UNKNOWN_STATUS"
          ("RFC " ++ rfcNum ++ " has an unrecognized status: \"" ++ st ++ "\".")
          (some (rfcEditorUrl rfcNum))]
       else []) ++
      (if info.obsoleted_by.isEmpty then [] else
        let message := "The referenced document RFC " ++ rfcNum ++
          " is obsolete and has been replaced by: " ++
          String.intercalate ", " info.obsoleted_by ++ "."
        match mode with
        | .normal => [mkError "OBSOLETE_DOCUMENT" message
            (some (rfcEditorInfoUrl info.rfc))]
        | .forgiveChecklist => [mkWarning "OBSOLETE_DOCUMENT" message
            (some (rfcEditorInfoUrl info.rfc))]
        | .submission => [])

/-- `validateNormativeReferences` of `downref.mjs`. -/
def validateNormativeReferences (gsw : String → Option Nat)
    (rfcOracle : String → Option RfcInfo)
    (doc : ValDoc) (mode : Mode) : Except String (List Finding) :=
  if mode = Mode.submission then .ok [] else
  match doc with
  | .txt ee =>
    let normative := ((ee.referenceSectionRfc.filter (fun el =>
        el.subsection = some SubsectionKind.normativeReferences &&
        rfcNumberTest el.value)).map (·.value))
    .ok (normative.flatMap (normativeRfcFindings gsw rfcOracle mode))
  | .xml d =>
    match d.refSections with
    | none => .error "TypeError"
    | some secs =>
      let normalized := ((normalizeXmlReferences (extractDefinedReferences secs)).filter
          (fun ref => ref.startsWith "RFC")).map
        (fun ref => String.mk (firstDigitRun ref.toList))
      .ok (normalized.flatMap (normativeRfcFindings gsw rfcOracle mode))

/-- The body of the per-reference loop of `validateUnclassifiedReferences`. -/
def unclassifiedRfcFindings (rfcOracle : String → Option RfcInfo)
    (mode : Mode) (ref : String) : List Finding :=
  match rfcOracle ref with
  | none => [mkComment "UNDEFINED_STATUS"
      ("The unclassified reference " ++ ref ++
        " does not have a defined status or could not be fetched.")
      (some (rfcEditorUrl ref))]
  | some info =>
    match info.status with
    | none => [mkComment "UNDEFINED_STATUS"
        ("The unclassified reference " ++ ref ++
          " does not have a defined status or could not be fetched.")
        (some (rfcEditorUrl ref))]
    | some _ =>
      if info.obsoleted_by.isEmpty then [] else
      let message := "The unclassified reference " ++ ref ++
        " is obsolete and has been replaced by: " ++
        String.intercalate ", " info.obsoleted_by ++ "."
      match mode with
      | .normal => [mkError "OBSOLETE_UNCLASSIFIED_REFERENCE" message
          (some (rfcEditorInfoUrl info.rfc))]
      | .forgiveChecklist => [mkWarning "OBSOLETE_UNCLASSIFIED_REFERENCE" message
          (some (rfcEditorInfoUrl info.rfc))]
      | .submission => []

/-- `validateUnclassifiedReferences` of `downref.mjs`.  The function has
no `doc.type` switch: on an XML document the access
`doc.data.extractedElements.referenceSectionRfc` throws. -/
def validateUnclassifiedReferences (rfcOracle : String → Option RfcInfo)
    (doc : ValDoc) (mode : Mode) : Except String (List Finding) :=
  if mode = Mode.submission then .ok [] else
  match doc with
  | .txt ee =>
    let unclassified := ((ee.referenceSectionRfc.filter (fun el =>
        el.subsection = some SubsectionKind.unclassifiedReferences)).map (·.value))
    .ok (unclassified.flatMap (unclassifiedRfcFindings rfcOracle mode))
  | .xml _ => .error "TypeError"

/-- The body of the per-reference loop of `validateInformativeReferences`. -/
def informativeRfcFindings (rfcOracle : String → Option RfcInfo)
    (mode : Mode) (ref : String) : List Finding :=
  match rfcOracle ref with
  | none => [mkComment "UNDEFINED_STATUS"
      ("The informative reference RFC " ++ ref ++
        " does not have a defined status or could not be fetched.")
      (some (rfcEditorUrl ref))]
  | some info =>
    match info.status with
    | none => [mkComment "UNDEFINED_STATUS"
        ("The informative reference RFC " ++ ref ++
          " does not have a defined status or could not be fetched.")
        (some (rfcEditorUrl ref))]
    | some _ =>
      if info.obsoleted_by.isEmpty then [] else
      let message := "The informative reference RFC " ++ ref ++
        " is obsolete and has been replaced by: " ++
        String.intercalate ", " info.obsoleted_by ++ "."
      match mode with
      | .normal => [mkError "OBSOLETE_INFORMATIVE_REFERENCE" message
          (some (rfcEditorInfoUrl info.rfc))]
      | .forgiveChecklist => [mkWarning "OBSOLETE_INFORMATIVE_REFERENCE" message
          (some (rfcEditorInfoUrl info.rfc))]
      | .submission => []

/-- `validateInformativeReferences` of `downref.mjs` (like the
unclassified validator, no `doc.type` switch). -/
def validateInformativeReferences (rfcOracle : String → Option RfcInfo)
    (doc : ValDoc) (mode : Mode) : Except String (List Finding) :=
  if mode = Mode.submission then .ok [] else
  match doc with
  | .txt ee =>
    let informative := ((ee.referenceSectionRfc.filter (fun el =>
        el.subsection = some SubsectionKind.informativeReferences)).map (·.value))
    .ok (informative.flatMap (informativeRfcFindings rfcOracle mode))
  | .xml _ => .error "TypeError"

/-- The body of the per-draft loop of `vlidateDraftReferences`. -/
def draftRefFindings (draftOracle : String → Option DraftInfo)
    (name : String) : List Finding :=
  match draftOracle name with
  | none => [mkWarning "UNDEFINED_STATE"
      ("The draft reference " ++ name ++
        " does not have a defined state or could not be fetched.")
      (some (datatrackerUrl name))]
  | some info =>
    match info.state with
    | none => [mkWarning "UNDEFINED_STATE"
        ("The draft reference " ++ name ++
          " does not have a defined state or could not be fetched.")
        (some (datatrackerUrl name))]
    | some st =>
      if String.mk (lowerStr st.toList) = "rfc" then
        [mkWarning "INVALID_STATE_FOR_DRAFT"
          ("The draft reference " ++ name ++
            " is already published as an RFC and should not be referenced as a draft.")
          (some (datatrackerUrl name))]
      else []

/-- `vlidateDraftReferences` of `downref.mjs` (the misspelt export name
is the source's). -/
def vlidateDraftReferences (draftOracle : String → Option DraftInfo)
    (doc : ValDoc) (mode : Mode) : Except String (List Finding) :=
  if mode = Mode.submission then .ok [] else
  match doc with
  | .txt ee =>
    let drafts := normalizeDraftReferences
        (ee.referenceSectionDraftReferences.map (·.value))
    .ok (drafts.flatMap (draftRefFindings draftOracle))
  | .xml d =>
    match d.refSections with
    | none => .error "TypeError"
    | some secs =>
      let normalized := normalizeXmlReferences (extractDefinedReferences secs)
      let drafts := normalized.filter (fun el => el.startsWith "draft-")
      .ok (drafts.flatMap (draftRefFindings draftOracle))

/-! ## TXT structural parser (`parse-txt.mjs`): lexical patterns -/

/-- `LINE_VALUES_EXTRACT_RE = ^(?<left>.*)\s{2,}(?<right>.*)$` (named
groups `left`, `right`).  The greedy `left` extends to the start of the
last window of two whitespace characters, so `left` keeps all but the
final two characters of that whitespace run; the greedy `\s{2,}` then
takes exactly those two (the character after the window is not
whitespace by maximality).  `none` when the line holds no such window. -/
def splitHeaderLine (cs : List Char) : Option (List Char × List Char) :=
  match ((List.range cs.length).filter (fun i =>
      match cs.drop i with
      | a :: b :: _ => isWsChar a && isWsChar b
      | _ => false)).getLast? with
  | some i => some (cs.take i, cs.drop (i + 2))
  | none => none

/-- `AUTHOR_NAME_RE = ^[a-z]\.\s[a-z]+$` with the `i` flag. -/
def authorNameTest (cs : List Char) : Bool :=
  match cs with
  | c :: '.' :: w :: rest =>
    isAlphaChar c && isWsChar w && !rest.isEmpty && rest.all isAlphaChar
  | _ => false

/-- The `month`/`year` tail of `DATE_RE`: `[a-z]{3,}` (with `i`), one
`\s`, four digits, end of string.  Returns the raw captures. -/
def monthYearMatch (cs : List Char) : Option (List Char × List Char) :=
  let (m, r) := cs.span isAlphaChar
  if m.length < 3 then none else
  match r with
  | w :: y1 :: y2 :: y3 :: y4 :: [] =>
    if isWsChar w && isDigitChar y1 && isDigitChar y2 && isDigitChar y3 && isDigitChar y4 then
      some (m, [y1, y2, y3, y4])
    else none
  | _ => none

/-- `DATE_RE = ^(?:(?<day>[0-9]{1,2})\s)?(?<month>[a-z]{3,})\s(?<year>[0-9]{4})$`
with the `i` flag; the optional greedy day group prefers two digits over
one over none.  Returns raw captures (day, month, year). -/
def dateMatch (cs : List Char) : Option (Option (List Char) × List Char × List Char) :=
  match cs with
  | d1 :: d2 :: w :: rest =>
    if isDigitChar d1 && isDigitChar d2 && isWsChar w then
      match monthYearMatch rest with
      | some (m, y) => some (some [d1, d2], m, y)
      | none => dateFallbackOne cs
    else dateFallbackOne cs
  | _ => dateFallbackOne cs
where
  dateFallbackOne (cs : List Char) : Option (Option (List Char) × List Char × List Char) :=
    match cs with
    | d1 :: w :: rest =>
      if isDigitChar d1 && isWsChar w then
        match monthYearMatch rest with
        | some (m, y) => some (some [d1], m, y)
        | none => (monthYearMatch cs).map (fun (m, y) => (none, m, y))
      else (monthYearMatch cs).map (fun (m, y) => (none, m, y))
    | _ => (monthYearMatch cs).map (fun (m, y) => (none, m, y))

/-- `SECTION_PATTERN = ^\d+\.\s+.+$`: a digit run, a dot, then at least
one whitespace followed by at least one further character. -/
def sectionPatternTest (cs : List Char) : Bool :=
  let (d, r) := cs.span isDigitChar
  !d.isEmpty &&
    match r with
    | '.' :: w :: _ :: _ => isWsChar w
    | _ => false

/-- Shared `^\d+\.\s+` head of the five `sectionMatchers`; returns the
heading text after the whitespace run. -/
def sectionHeadingRest (cs : List Char) : Option (List Char) :=
  let (d, r) := cs.span isDigitChar
  if d.isEmpty then none else
  match r with
  | '.' :: rest =>
    let (w, rr) := rest.span isWsChar
    if w.isEmpty then none else some rr
  | _ => none

/-- The characters of the class `[0-9a-z.]` under the `i` flag. -/
def hdrClassChar (c : Char) : Bool :=
  isDigitChar c || isAlphaChar c || c = '.'

/-- The quote class `[‘’‛'`"]` of the author heading
patterns. -/
def authorQuoteChars : List Char :=
  [Char.ofNat 0x2018, Char.ofNat 0x2019, Char.ofNat 0x201B,
   Char.ofNat 0x27, Char.ofNat 0x60, '"']

/-- `^[0-9a-z.]*\s*` head check: the text is a class-char run followed
by a whitespace run (the two classes are disjoint, so the
decomposition, when it exists, is the maximal class run followed by
whitespace only). -/
def classWsHead (pre : List Char) : Bool :=
  (pre.dropWhile hdrClassChar).all isWsChar

/-- `^[0-9a-z.]*\s*LIT$` (whole string, already lower-cased input): the
string ends with the literal and what precedes it is a class run then a
whitespace run. -/
def classWsThenLit (l lit : List Char) : Bool :=
  lit.length ≤ l.length &&
    l.drop (l.length - lit.length) = lit &&
    classWsHead (l.take (l.length - lit.length))

/-- `AUTHORS_OR_EDITORS_ADDRESSES_RE = ^(Authors?|Editors?)['...]` quote
`Addresses$` (with `i`). -/
def authorsAddressesTest (l : List Char) : Bool :=
  ["authors", "author", "editors", "editor"].any (fun w =>
    authorQuoteChars.any (fun q =>
      l = w.toList ++ q :: " addresses".toList))

/-- `AUTHOR_CONTACT_INFORMATION_RE =
^[0-9a-z.]*\s*(author|editor)(?:['...]s?|s)?\s+contact information$`. -/
def authorContactTest (l : List Char) : Bool :=
  let lit := "contact information".toList
  lit.length ≤ l.length &&
    l.drop (l.length - lit.length) = lit &&
    (let pre := l.take (l.length - lit.length)
     let wsR := pre.reverse.takeWhile isWsChar
     !wsR.isEmpty &&
       (let core := (pre.reverse.dropWhile isWsChar).reverse
        ([] :: ['s'] :: authorQuoteChars.flatMap (fun q => [[q], [q, 's']])).any
          (fun v =>
            ["author", "editor"].any (fun w =>
              let tail := w.toList ++ v
              tail.length ≤ core.length &&
                core.drop (core.length - tail.length) = tail &&
                classWsHead (core.take (core.length - tail.length))))))

/-- `AUTHOR_EDITORS_RE = ^[0-9a-z.]*\s*(author|editor)s?:?$`. -/
def authorEditorsTest (l : List Char) : Bool :=
  ([[], ['s'], [':'], ['s', ':']] : List (List Char)).any (fun v =>
    ["author", "editor"].any (fun w =>
      let tail := w.toList ++ v
      tail.length ≤ l.length &&
        l.drop (l.length - tail.length) = tail &&
        classWsHead (l.take (l.length - tail.length))))

/-- `AUTHOR_SECTION_RE`: the five author/contact heading alternatives
(each one anchored to the whole string), case-insensitively. -/
def authorSectionTest (cs : List Char) : Bool :=
  let l := lowerStr cs
  authorsAddressesTest l ||
  classWsThenLit l "author information".toList ||
  authorContactTest l ||
  classWsThenLit l "contact information".toList ||
  authorEditorsTest l

/-- The section names tracked by the parser (the keys of `markers` that
carry a `{start, end, closed}` record beside `header`). -/
inductive SectionId where
  | abstract
  | introduction
  | securityConsiderations
  | authorAddress
  | references
  | ianaConsiderations
deriving DecidableEq, Repr

/-- `sectionMatchers`, probed in array order; `none` when a line passes
the heading gate but matches no named section. -/
def sectionMatchers : List (SectionId × (List Char → Bool)) :=
  [ (.introduction, fun cs =>
      let rest := (sectionHeadingRest cs).map lowerStr
      rest = some "introduction".toList || rest = some "overview".toList
        || rest = some "background".toList),
    (.securityConsiderations, fun cs =>
      (sectionHeadingRest cs).map lowerStr = some "security considerations".toList),
    (.authorAddress, fun cs => authorSectionTest cs),
    (.references, fun cs =>
      (sectionHeadingRest cs).map lowerStr = some "references".toList),
    (.ianaConsiderations, fun cs =>
      (sectionHeadingRest cs).map lowerStr = some "iana considerations".toList) ]

def findSectionMatcher (cs : List Char) : Option SectionId :=
  (sectionMatchers.find? (fun m => m.2 cs)).map (fun m => m.1)

/-- `SUBSECTION_PATTERN = ^\d+\.\d+\.\s+(.+)$` matched at position 0
(the pattern is `^`-anchored without the `m` flag). -/
def subsectionPatternAt0 (cs : List Char) : Bool :=
  let (d1, r1) := cs.span isDigitChar
  !d1.isEmpty &&
    match r1 with
    | '.' :: r2 =>
      let (d2, r3) := r2.span isDigitChar
      !d2.isEmpty &&
        match r3 with
        | '.' :: w :: _ :: _ => isWsChar w
        | _ => false
    | _ => false

/-- `SUBSECTION_PATTERN.test(line)` with the regex's persistent
`lastIndex` (`g` flag): a nonzero `lastIndex` makes the `^`-anchored
search fail and resets it; from 0, a successful match moves `lastIndex`
to the match end (the whole line, since the pattern runs to `$`). -/
def subsectionTestSt (lastIndex : Nat) (cs : List Char) : Bool × Nat :=
  if lastIndex = 0 then
    if subsectionPatternAt0 cs then (true, cs.length) else (false, 0)
  else (false, 0)

/-- `TOC_PATTERN = \.+\s*\d+$` (unanchored): the line ends in a digit
run preceded by optional whitespace preceded by at least one dot. -/
def tocPatternTest (cs : List Char) : Bool :=
  let r := cs.reverse
  let (dg, r1) := r.span isDigitChar
  !dg.isEmpty &&
    (let (_, r2) := r1.span isWsChar
     match r2 with
     | '.' :: _ => true
     | _ => false)

/-- `([a-zA-Z]+\s+)*Reference(s)?$` tail of the unclassified-references
matcher, on lower-cased input. -/
def wordsThenReference (fuel : Nat) (l : List Char) : Bool :=
  if l = "reference".toList || l = "references".toList then true
  else
    match fuel with
    | 0 => false
    | f + 1 =>
      let (a, r1) := l.span isAlphaChar
      if a.isEmpty then false
      else
        let (w, r2) := r1.span isWsChar
        if w.isEmpty then false else wordsThenReference f r2

/-- Shared `^\d+\.\d+\.\s+` head of the `subsectionMatchers`. -/
def subsectionHeadingRest (cs : List Char) : Option (List Char) :=
  let (d1, r1) := cs.span isDigitChar
  if d1.isEmpty then none else
  match r1 with
  | '.' :: r2 =>
    let (d2, r3) := r2.span isDigitChar
    if d2.isEmpty then none else
    match r3 with
    | '.' :: rest =>
      let (w, rr) := rest.span isWsChar
      if w.isEmpty then none else some rr
    | _ => none
  | _ => none

/-- `WORD\s+References$` tail (lower-cased input). -/
def wordWsReferences (word l : List Char) : Bool :=
  listStartsWith word l &&
    (let r := l.drop word.length
     let (w, rem) := r.span isWsChar
     !w.isEmpty && rem = "references".toList)

/-- `subsectionMatchers`, probed in array order (normative,
informative, unclassified). -/
def findSubsectionMatcher (cs : List Char) : Option SubsectionKind :=
  match subsectionHeadingRest cs with
  | none => none
  | some rest =>
    let l := lowerStr rest
    if wordWsReferences "normative".toList l then some .normativeReferences
    else if wordWsReferences "informative".toList l then some .informativeReferences
    else if wordsThenReference l.length l then some .unclassifiedReferences
    else none

/-- The tail of the first `RFC_REFERENCE_RE` alternative after the
case-insensitive `RFC` literal: greedy `\s?`, a digit run, then a `\b`
boundary.  Returns the digits and the number of characters consumed. -/
def rfcAlt1After (rest : List Char) : Option (List Char × Nat) :=
  let boundaryAfter : List Char → Bool := fun l =>
    match l with
    | [] => true
    | c :: _ => !isWordChar c
  let withWs : Option (List Char × Nat) :=
    match rest with
    | w :: r2 =>
      if isWsChar w then
        let dg := r2.takeWhile isDigitChar
        if !dg.isEmpty && boundaryAfter (r2.drop dg.length) then
          some (dg, 1 + dg.length)
        else none
      else none
    | [] => none
  match withWs with
  | some x => some x
  | none =>
    let dg := rest.takeWhile isDigitChar
    if !dg.isEmpty && boundaryAfter (rest.drop dg.length) then
      some (dg, dg.length)
    else none

/-- One attempt of `RFC_REFERENCE_RE = \bRFC\s?(\d+)\b|\[RFC(\d+)\]`
(flags `gi`) at the current position; `prevWord` tells whether the
preceding character is a word character (for `\b`).  Alternatives are
tried in source order.  Returns the captured digits and the match
length. -/
def tryRfcAt (prevWord : Bool) (cs : List Char) : Option (List Char × Nat) :=
  let alt1 : Option (List Char × Nat) :=
    if prevWord then none
    else
      match cs with
      | a :: b :: c :: rest =>
        if lowerChar a = 'r' && lowerChar b = 'f' && lowerChar c = 'c' then
          (rfcAlt1After rest).map (fun (dg, u) => (dg, 3 + u))
        else none
      | _ => none
  match alt1 with
  | some x => some x
  | none =>
    match cs with
    | '[' :: a :: b :: c :: rest =>
      if lowerChar a = 'r' && lowerChar b = 'f' && lowerChar c = 'c' then
        let dg := rest.takeWhile isDigitChar
        if !dg.isEmpty then
          match rest.drop dg.length with
          | ']' :: _ => some (dg, dg.length + 5)
          | _ => none
        else none
      else none
    | _ => none

/-- The `exec` loop over `RFC_REFERENCE_RE`: leftmost, non-overlapping
matches in order (`rfcMatch[1] || rfcMatch[2]`, always the digit
capture).  `fuel` bounds the scan; each step consumes at least one
character. -/
def scanRfcRefs : Nat → Bool → List Char → List (List Char)
  | 0, _, _ => []
  | _ + 1, _, [] => []
  | fuel + 1, prevWord, c :: rest =>
    match tryRfcAt prevWord (c :: rest) with
    | some (dg, k) =>
      let consumed := (c :: rest).take k
      let prevWord' := match consumed.getLast? with
                       | some lc => isWordChar lc
                       | none => prevWord
      dg :: scanRfcRefs fuel prevWord' ((c :: rest).drop k)
    | none => scanRfcRefs fuel (isWordChar c) rest

/-- All RFC numbers matched on a line, in match order. -/
def rfcRefMatches (cs : List Char) : List String :=
  (scanRfcRefs cs.length false cs).map String.mk

/-- The name class `[a-zA-Z0-9-.]` of `NON_RFC_REFERENCE_RE`. -/
def isDraftNameChar (c : Char) : Bool :=
  isAlphaChar c || isDigitChar c || c = '-' || c = '.'

/-- One attempt of `NON_RFC_REFERENCE_RE = \[(?!RFC\d+)[a-zA-Z0-9-.]+\]`
(flags `gi`) at the current position.  The matched text keeps its
brackets. -/
def tryDraftAt (cs : List Char) : Option (List Char × Nat) :=
  match cs with
  | '[' :: r =>
    let lookRfc :=
      match r with
      | a :: b :: c :: d :: _ =>
        lowerChar a = 'r' && lowerChar b = 'f' && lowerChar c = 'c' && isDigitChar d
      | _ => false
    if lookRfc then none
    else
      let nm := r.takeWhile isDraftNameChar
      if nm.isEmpty then none
      else
        match r.drop nm.length with
        | ']' :: _ => some ('[' :: nm ++ [']'], nm.length + 2)
        | _ => none
  | _ => none

/-- The `exec` loop over `NON_RFC_REFERENCE_RE`. -/
def scanDraftRefs : Nat → List Char → List (List Char)
  | 0, _ => []
  | _ + 1, [] => []
  | fuel + 1, c :: rest =>
    match tryDraftAt (c :: rest) with
    | some (m, k) => m :: scanDraftRefs fuel ((c :: rest).drop k)
    | none => scanDraftRefs fuel rest

/-- All bracketed non-RFC (candidate draft) references on a line. -/
def draftRefMatches (cs : List Char) : List String :=
  (scanDraftRefs cs.length cs).map String.mk

/-! ## TXT structural parser: document model and line scanner -/

/-- The `markers.header` record `{start, end, lastAuthor, closed}`
(`end` is spelt `endL`). -/
structure HeaderMarker where
  start : Nat := 0
  endL : Nat := 0
  lastAuthor : Nat := 0
  closed : Bool := false
deriving DecidableEq, Repr

/-- A section marker `{start, end, closed}` (`0` meaning unset). -/
structure SectMarker where
  start : Nat := 0
  endL : Nat := 0
  closed : Bool := false
deriving DecidableEq, Repr

/-- The `markers` record built by the parser (`title` and `slug` are
plain line numbers). -/
structure Markers where
  header : HeaderMarker := {}
  title : Nat := 0
  slug : Nat := 0
  abstract : SectMarker := {}
  introduction : SectMarker := {}
  securityConsiderations : SectMarker := {}
  authorAddress : SectMarker := {}
  references : SectMarker := {}
  ianaConsiderations : SectMarker := {}
deriving DecidableEq, Repr

def Markers.get (m : Markers) : SectionId → SectMarker
  | .abstract => m.abstract
  | .introduction => m.introduction
  | .securityConsiderations => m.securityConsiderations
  | .authorAddress => m.authorAddress
  | .references => m.references
  | .ianaConsiderations => m.ianaConsiderations

def Markers.set (m : Markers) : SectionId → SectMarker → Markers
  | .abstract, v => { m with abstract := v }
  | .introduction, v => { m with introduction := v }
  | .securityConsiderations, v => { m with securityConsiderations := v }
  | .authorAddress, v => { m with authorAddress := v }
  | .references, v => { m with references := v }
  | .ianaConsiderations, v => { m with ianaConsiderations := v }

/-- `data.header.date` (`{day, month, year}`; `day` is `NaN` in JS when
the capture is absent, modelled as `none`). -/
structure DateHdr where
  day : Option Nat
  month : String
  year : Nat
deriving DecidableEq, Repr

/-- One element of `data.header.authors`: `org` is absent until
assigned (the empty string marks "no affiliation"). -/
structure Author where
  name : String
  org : Option String := none
deriving DecidableEq, Repr

structure TxtHeader where
  source : Option String := none
  authors : List Author := []
  date : Option DateHdr := none
  expires : Option String := none
  intendedStatus : Option String := none
  category : Option String := none
  issn : Option String := none
  rfcNumber : Option String := none
  obsoletes : Option (List String) := none
deriving DecidableEq, Repr

/-- `data.content`: one optional line list per tracked section
(`null` until the section opens). -/
structure SectionContent where
  abstract : Option (List String) := none
  introduction : Option (List String) := none
  securityConsiderations : Option (List String) := none
  authorAddress : Option (List String) := none
  references : Option (List String) := none
  ianaConsiderations : Option (List String) := none
deriving DecidableEq, Repr

def SectionContent.get (c : SectionContent) : SectionId → Option (List String)
  | .abstract => c.abstract
  | .introduction => c.introduction
  | .securityConsiderations => c.securityConsiderations
  | .authorAddress => c.authorAddress
  | .references => c.references
  | .ianaConsiderations => c.ianaConsiderations

def SectionContent.set (c : SectionContent) : SectionId → Option (List String) → SectionContent
  | .abstract, v => { c with abstract := v }
  | .introduction, v => { c with introduction := v }
  | .securityConsiderations, v => { c with securityConsiderations := v }
  | .authorAddress, v => { c with authorAddress := v }
  | .references, v => { c with references := v }
  | .ianaConsiderations, v => { c with ianaConsiderations := v }

/-- `data.references` (`[RFC2119]` / `[RFC8174]` citation flags). -/
structure RefsFlags where
  rfc2119 : Bool := false
  rfc8174 : Bool := false
deriving DecidableEq, Repr

/-- The TXT document data built by one parse run (the fields dropped
from `data` — `extractedElements` beyond the four reference buckets,
`possibleIssues`, `boilerplate`, `contains` — are write-only outputs of
extraction passes that read none of the state below; `docKind` is the
loop variable returned beside `data`). -/
structure TxtData where
  pageCount : Nat := 1
  header : TxtHeader := {}
  title : Option String := none
  slug : Option String := none
  content : SectionContent := {}
  extractedElements : ExtractedElements := {}
  references : RefsFlags := {}
  markers : Markers := {}
  docKind : Option String := none
deriving DecidableEq, Repr

/-- The scanner state of one `parse` call: the document under
construction, the loop variables, and the persistent `lastIndex` of the
module-level `SUBSECTION_PATTERN` regex (the only mutable state that
survives a completed parse call). -/
structure ScanState where
  d : TxtData := {}
  lineIdx : Nat := 0
  currentSection : Option SectionId := none
  currentSubSection : Option SubsectionKind := none
  subLastIndex : Nat := 0
deriving DecidableEq, Repr

/-- `push` guarded by `includes` (dedup by value). -/
def insertIfAbsent (l : List String) (v : String) : List String :=
  if v ∈ l then l else l ++ [v]

/-- `push({value, subsection})` guarded by `find(el => el.value === v)`. -/
def insertRefEntry (sub : Option SubsectionKind) (l : List RefEntry) (v : String) :
    List RefEntry :=
  if l.any (fun e => e.value = v) then l else l ++ [⟨v, sub⟩]

/-- The per-line extraction block (RFC cross-references, candidate draft
references, `[RFC2119]`/`[RFC8174]` citation flags), bucketed by whether
`currentSection` is the references section. -/
def extractLineRefs (st : ScanState) (t : List Char) : ScanState :=
  let rfcs := rfcRefMatches t
  let drafts := draftRefMatches t
  let ee := st.d.extractedElements
  let ee :=
    if st.currentSection = some SectionId.references then
      { ee with referenceSectionRfc :=
          rfcs.foldl (insertRefEntry st.currentSubSection) ee.referenceSectionRfc }
    else
      { ee with nonReferenceSectionRfc :=
          rfcs.foldl insertIfAbsent ee.nonReferenceSectionRfc }
  let ee :=
    if st.currentSection = some SectionId.references then
      { ee with referenceSectionDraftReferences :=
          drafts.foldl (insertRefEntry st.currentSubSection) ee.referenceSectionDraftReferences }
    else
      { ee with nonReferenceSectionDraftReferences :=
          drafts.foldl insertIfAbsent ee.nonReferenceSectionDraftReferences }
  let refs := { rfc2119 := st.d.references.rfc2119 || containsSubCI "[rfc2119]".toList t
                rfc8174 := st.d.references.rfc8174 || containsSubCI "[rfc8174]".toList t }
  { st with d := { st.d with extractedElements := ee, references := refs } }

def ScanState.updData (st : ScanState) (f : TxtData → TxtData) : ScanState :=
  { st with d := f st.d }

def ScanState.updHeader (st : ScanState) (f : TxtHeader → TxtHeader) : ScanState :=
  st.updData (fun d => { d with header := f d.header })

def ScanState.updMarkers (st : ScanState) (f : Markers → Markers) : ScanState :=
  st.updData (fun d => { d with markers := f d.markers })

/-- `values.left.split(':')?.[1]?.trim()`: the trimmed text between the
first and second colon, when a colon exists. -/
def splitColonSecond (cs : List Char) : Option (List Char) :=
  match splitOnChar ':' cs with
  | _ :: x :: _ => some (trimChars x)
  | _ => none

/-- The mutating `findLast` callback over `data.header.authors`: walking
back from the last author, assign `org := v` to every author still
lacking one and stop at the first author that has one. -/
def assignOrgRev (v : String) : List Author → List Author
  | [] => []
  | a :: rest =>
    if a.org.isSome then a :: rest
    else { a with org := some v } :: assignOrgRev v rest

def assignOrgAll (l : List Author) (v : String) : List Author :=
  (assignOrgRev v l.reverse).reverse

/-- One open-header continuation line (the `else` branch of the first
header block): `markers.header.end = lineIdx`, the field lexicon on
`values.left`, the date match, and the author / organisation logic on
`values.right`.  `statusHier` stands for `extractStatusName` over
`rfcStatusHierarchy` (`lib/config/rfc-status-hierarchy.mjs`, not under
`src/`; modelled from the spec as the clean-name lookup over the fixed
ranked status table, `none` when nothing matches).  The `Obsoletes`
branch throws when the line has no colon (`undefined.indexOf`), which
the surrounding `try` turns into `TXT_PARSING_FAILED`. -/
def headerFieldCore (statusHier : String → Option String) (hdr0 : TxtHeader)
    (docKind0 : Option String) (lastAuthor0 : Nat)
    (rawLine t : List Char) (n : Nat) :
    Except String (TxtHeader × Option String × Nat) :=
  let lr :=
    match splitHeaderLine rawLine with
    | some (l, r) => (l, some r)
    | none => (t, (none : Option (List Char)))
  let left := lr.1
  let right := lr.2
  if left.isEmpty then .ok (hdr0, docKind0, lastAuthor0) else
  let docKind1 :=
    if listContainsSub "Internet-Draft".toList left then some "draft"
    else if listStartsWith "Request for Comments".toList left then some "rfc"
    else docKind0
  let hdr :=
    if !listContainsSub "Internet-Draft".toList left &&
        listStartsWith "Request for Comments".toList left then
      { hdr0 with rfcNumber := (splitColonSecond left).map String.mk }
    else hdr0
  let hdr :=
    if listStartsWith "Intended".toList left then
      let raw := (splitColonSecond left).map String.mk
      let clean := statusHier (raw.getD "undefined")
      { hdr with intendedStatus := match clean with | some c => some c | none => raw }
    else hdr
  let obsStep : Except String TxtHeader :=
    if listStartsWith "Obsoletes".toList left then
      match splitColonSecond left with
      | none => .error "TXT_PARSING_FAILED"
      | some v =>
        let vals :=
          if v.contains ',' then
            (splitOnChar ',' v).map (fun p => String.mk (trimChars p))
          else [String.mk v]
        .ok { hdr with obsoletes := some vals }
    else .ok hdr
  match obsStep with
  | .error e => .error e
  | .ok hdr =>
    let hdr :=
      if listStartsWith "Category".toList left then
        let raw := (splitColonSecond left).map String.mk
        let clean := statusHier (raw.getD "undefined")
        { hdr with category := match clean with | some c => some c | none => raw }
      else hdr
    let hdr :=
      if listStartsWith "ISSN".toList left then
        { hdr with issn := (splitColonSecond left).map String.mk }
      else hdr
    let hdr :=
      if listStartsWith "Expires".toList left then
        match splitColonSecond left with
        | some v =>
          match dateMatch v with
          | some (dOpt, m, y) =>
            { hdr with expires := some ((match dOpt with
                | some d => String.mk d
                | none => "1") ++ " " ++ String.mk m ++ " " ++ String.mk y) }
          | none => hdr
        | none => hdr
      else hdr
    let hdr :=
      match dateMatch left with
      | some (dOpt, m, y) =>
        { hdr with date := some ⟨dOpt.map digitsToNat, String.mk m, digitsToNat y⟩ }
      | none => hdr
    if hdr.date.isSome then .ok (hdr, docKind1, lastAuthor0)
    else
      let hdr :=
        match right with
        | some r =>
          if authorNameTest r then
            let auths :=
              if n > lastAuthor0 + 1 then assignOrgAll hdr.authors ""
              else hdr.authors
            { hdr with authors := auths ++ [({ name := String.mk r, org := none } : Author)] }
          else if !r.isEmpty then
            { hdr with authors := assignOrgAll hdr.authors (String.mk r) }
          else hdr
        | none => hdr
      .ok (hdr, docKind1, n)

/-- One open-header continuation line (the `else` branch of the first
header block): `markers.header.end = lineIdx`, then the field lexicon,
date match and author / organisation logic of `headerFieldCore` applied
to the header record, the `docKind` loop variable and
`markers.header.lastAuthor`. -/
def headerFieldStep (statusHier : String → Option String) (st : ScanState)
    (rawLine t : List Char) (n : Nat) : Except String ScanState :=
  let st := st.updMarkers (fun m => { m with header := { m.header with endL := n } })
  match headerFieldCore statusHier st.d.header st.d.docKind
      st.d.markers.header.lastAuthor rawLine t n with
  | .error e => .error e
  | .ok (hdr, dk, la) =>
    .ok (((st.updHeader (fun _ => hdr)).updData (fun d => { d with docKind := dk })).updMarkers
      (fun m => { m with header := { m.header with lastAuthor := la } }))

/-- Opening the Abstract section (`trimmedLine === 'Abstract'`,
case-sensitive). -/
def openAbstract (st : ScanState) (n : Nat) : ScanState :=
  let st := st.updMarkers (fun m => { m with abstract := { m.abstract with start := n } })
  let st := st.updData (fun d => { d with content := d.content.set .abstract (some []) })
  { st with currentSection := some .abstract }

/-- Closing the Abstract section at the previous line. -/
def closeAbstract (st : ScanState) (n : Nat) : ScanState :=
  st.updMarkers (fun m =>
    { m with abstract := { m.abstract with endL := n - 1, closed := true } })

/-- The Abstract block: an exact `Abstract` line opens the section;
while it is open, a `Status of` line or a line not indented by two
spaces closes it at the previous line. -/
def stepAbstract (st : ScanState) (rawLine t : List Char) (n : Nat) : ScanState :=
  if t = "Abstract".toList then openAbstract st n
  else if st.d.markers.abstract.start ≠ 0 && !st.d.markers.abstract.closed then
    if listStartsWith "Status of".toList t || !listStartsWith "  ".toList rawLine then
      closeAbstract st n
    else st
  else st

/-- Force-closing the still-open current section at the previous line
(the first half of the section-detection block). -/
def closeCurrentSection (st : ScanState) (n : Nat) : ScanState :=
  match st.currentSection with
  | some cs =>
    if !(st.d.markers.get cs).closed then
      st.updMarkers (fun m => m.set cs { m.get cs with endL := n - 1, closed := true })
    else st
  | none => st

/-- Opening the matched named section: set its `start`, reset its
content list, and make it current (`closed` and `end` are left alone). -/
def openMatchedSection (st : ScanState) (s : SectionId) (n : Nat) : ScanState :=
  let st := st.updMarkers (fun m => m.set s { m.get s with start := n })
  let st := st.updData (fun d => { d with content := d.content.set s (some []) })
  { st with currentSection := some s }

/-- Section detection: on a line passing the heading gate, force-close
the still-open current section at the previous line, then open the
matched named section or clear `currentSection`. -/
def stepSection (st : ScanState) (t : List Char) (n : Nat) : ScanState :=
  if sectionPatternTest t || authorSectionTest t then
    match findSectionMatcher t with
    | some s => openMatchedSection (closeCurrentSection st n) s n
    | none => { closeCurrentSection st n with currentSection := none }
  else st

/-- Subsection detection, through the stateful
`SUBSECTION_PATTERN.test` and the table-of-contents exclusion. -/
def stepSubsection (st : ScanState) (t : List Char) : ScanState :=
  let p := subsectionTestSt st.subLastIndex t
  let st := { st with subLastIndex := p.2 }
  if p.1 && !tocPatternTest t then
    match findSubsectionMatcher t with
    | some k => { st with currentSubSection := some k }
    | none => { st with currentSubSection := none }
  else st

/-- Content accumulation into the open, unclosed current section. -/
def stepContent (st : ScanState) (t : List Char) : ScanState :=
  match st.currentSection with
  | some cs =>
    if (st.d.markers.get cs).start ≠ 0 && !(st.d.markers.get cs).closed then
      st.updData (fun d =>
        { d with content := d.content.set cs (some ((d.content.get cs).getD [] ++ [String.mk t])) })
    else st
  | none => st

/-- The post-header part of one line: the slug check (which consumes the
line right after the title), then Abstract, section, subsection and
content handling. -/
def afterTitleFlow (st : ScanState) (rawLine t : List Char) (n : Nat) : ScanState :=
  if st.d.title.isSome && n = st.d.markers.title + 1 then
    (st.updData (fun d => { d with slug := some (String.mk t) })).updMarkers
      (fun m => { m with slug := n })
  else
    stepContent (stepSubsection (stepSection (stepAbstract st rawLine t n) t n) t) t

/-- One iteration of `for (const line of rawText.split('\n'))`:
page-break and empty-line skips, the per-line extraction, the two header
blocks (the second one re-checked after the Abstract logic, giving the
`continue` while the header is open), and the section machinery. -/
def stepLine (statusHier : String → Option String) (st : ScanState)
    (rawLine : List Char) : Except String ScanState :=
  let n := st.lineIdx + 1
  let st := { st with lineIdx := n }
  if rawLine.any (fun c => c = Char.ofNat 12) then
    .ok (st.updData (fun d => { d with pageCount := d.pageCount + 1 }))
  else
  let t := trimChars rawLine
  if t.isEmpty then .ok st else
  let st := extractLineRefs st t
  if st.d.markers.header.start = 0 then
    match splitHeaderLine t with
    | none => .error "TXT_PARSING_FAILED"
    | some (l, r) =>
      .ok ((st.updHeader (fun h =>
        { h with source := some (String.mk l),
                 authors := [⟨String.mk r, none⟩] })).updMarkers
        (fun m => { m with header := { m.header with start := n, endL := n, lastAuthor := n } }))
  else if !st.d.markers.header.closed then
    if n > st.d.markers.header.endL + 1 then
      let st := st.updMarkers (fun m => { m with header := { m.header with closed := true },
                                                 title := n })
      let st := st.updData (fun d => { d with title := some (String.mk t) })
      .ok (afterTitleFlow st rawLine t n)
    else
      match headerFieldStep statusHier st rawLine t n with
      | .error e => .error e
      | .ok st => .ok (stepAbstract st rawLine t n)
  else .ok (afterTitleFlow st rawLine t n)

/-- `// Close the last section` after the loop. -/
def finalCloseScan (st : ScanState) : ScanState :=
  match st.currentSection with
  | some cs =>
    if !(st.d.markers.get cs).closed then
      st.updMarkers (fun m => m.set cs { m.get cs with endL := st.lineIdx, closed := true })
    else st
  | none => st

def runTxtLines (statusHier : String → Option String) :
    ScanState → List (List Char) → Except String ScanState
  | st, [] => .ok st
  | st, l :: ls =>
    match stepLine statusHier st l with
    | .error e => .error e
    | .ok st' => runTxtLines statusHier st' ls

/-- `rawText.split('\n')`. -/
def splitLines (cs : List Char) : List (List Char) :=
  splitOnChar '\n' cs

/-- The TXT `parse(rawText, filename)` entry point, with the persistent
`SUBSECTION_PATTERN.lastIndex` made explicit: `subIdx` is its value when
the call starts (`0` in a fresh process) and the second component of the
result is its value when the call returns.  The error case is the
`TXT_PARSING_FAILED` `ValidationError` of the `catch` block. -/
def parseTxtSt (statusHier : String → Option String) (subIdx : Nat)
    (rawText : String) : Except String (TxtData × Nat) :=
  match runTxtLines statusHier { subLastIndex := subIdx } (splitLines rawText.toList) with
  | .error e => .error e
  | .ok st =>
    let st := finalCloseScan st
    .ok (st.d, st.subLastIndex)

/-- The TXT parse as called on a fresh process (pristine regex state). -/
def parseTxt (statusHier : String → Option String) (rawText : String) :
    Except String TxtData :=
  (parseTxtSt statusHier 0 rawText).map (·.1)

/-! ## Concrete inputs used by the claim theorems

None of these TXT inputs contains an `Intended status:` or `Category:`
header line, so the parses below never consult the status-hierarchy
parameter; where a closed statement is required it is fixed to a stub. -/

def statusHierStub : String → Option String := fun _ => none

/-- Header line, gap, a title line that is itself a subsection heading,
a slug line, a references section, one bracketed RFC citation, and a
trailing subsection heading (which leaves `SUBSECTION_PATTERN.lastIndex`
at 27 when the parse returns). -/
def c3Input : String :=
  "Src  A. Bb\n\n1.1. Normative References\ndraft-slug\n1. References\nSee [RFC2119].\n1.2. Informative References"

/-- First line `Short Source`, twenty spaces, `J. Doe`. -/
def c6Input20 : String :=
  "Short Source" ++ String.mk (List.replicate 20 ' ') ++ "J. Doe"

/-- First line `Short Source`, exactly two spaces, `J. Doe`. -/
def c6Input2 : String := "Short Source  J. Doe"

/-- `RFC 1234` cited on two different lines, both outside the
references section. -/
def c7Input : String :=
  "Src  A. Bb\n\nTitle RFC 1234\nslug\nAlso RFC 1234 again"

/-- A references section closed by an introduction heading and then
re-opened by a second references heading. -/
def c8Input : String :=
  "Src  A. Bb\n\nTitle\nslug\n1. References\n2. Introduction\n3. References\nx"

/-- Two external entity declarations sharing one line. -/
def c9OneLine : String :=
  "<!ENTITY a SYSTEM \"u1\"> <!ENTITY b SYSTEM \"u2\">"

/-- Two external entity declarations on separate lines, then an element. -/
def c9TwoLines : String :=
  "<!ENTITY a SYSTEM \"u1\">\n<!ENTITY b PUBLIC \"u2\">\n<x/>"

/-- A document with one normative reference entry, used by witnesses. -/
def witnessEe : ExtractedElements :=
  { referenceSectionRfc := [{ value := "4086", subsection := some SubsectionKind.normativeReferences }] }

/-- An oracle whose answer for RFC 4086 is obsoleted by RFC 9000. -/
def witnessObsOracle : String → Option RfcInfo := fun n =>
  if n = "4086" then
    some { rfc := some "4086", status := some "Proposed Standard", obsoleted_by := ["9000"] }
  else none

/-- A line on which the scanner can open the marker of section `s`: an
exact `Abstract` line for the Abstract, a heading-gate line whose
section matcher names `s` for the others.  (A syntactic upper bound:
every actual open during the scan happens on such a line.) -/
def opensSection (rawLine : List Char) (s : SectionId) : Bool :=
  if rawLine.any (fun c => c = Char.ofNat 12) then false
  else
    let t := trimChars rawLine
    if t.isEmpty then false
    else
      match s with
      | .abstract => t = "Abstract".toList
      | _ => (sectionPatternTest t || authorSectionTest t) &&
          decide (findSectionMatcher t = some s)

/-- The scan invariant behind the marker claims: the header marker is
well-formed, every closed section marker satisfies `end ≥ start` with a
nonzero `start` bounded by the lines read so far, the current section
has been opened, and each section's remaining "open budget" (openers
left in `rest` plus one if already opened) does not exceed one. -/
def ScanInv (st : ScanState) (rest : List (List Char)) : Prop :=
  st.d.markers.header.start ≤ st.d.markers.header.endL ∧
  st.d.markers.header.endL ≤ st.lineIdx ∧
  ∀ s : SectionId,
    ((st.d.markers.get s).closed = true →
      (st.d.markers.get s).start ≤ (st.d.markers.get s).endL) ∧
    ((st.d.markers.get s).closed = true → (st.d.markers.get s).start ≠ 0) ∧
    ((st.d.markers.get s).start ≠ 0 → (st.d.markers.get s).start ≤ st.lineIdx) ∧
    (st.currentSection = some s → (st.d.markers.get s).start ≠ 0) ∧
    (rest.countP (fun l => opensSection l s) +
        (if (st.d.markers.get s).start ≠ 0 then 1 else 0) ≤ 1)

/-- The per-line section-marker invariant, with an explicit bound on
opened `start` values: every closed marker satisfies `end >= start` with
nonzero `start`, every opened marker was opened at a line up to `b`, and
the current section has been opened. -/
def SectInvB (M : ScanState) (b : Nat) : Prop :=
  ∀ s : SectionId,
    ((M.d.markers.get s).closed = true →
      (M.d.markers.get s).start ≤ (M.d.markers.get s).endL) ∧
    ((M.d.markers.get s).closed = true → (M.d.markers.get s).start ≠ 0) ∧
    ((M.d.markers.get s).start ≠ 0 → (M.d.markers.get s).start ≤ b) ∧
    (M.currentSection = some s → (M.d.markers.get s).start ≠ 0)

def c7StRefs : ScanState :=
  { currentSection := some SectionId.references,
    currentSubSection := some SubsectionKind.normativeReferences }

def c7StBody : ScanState := {}

def c7Line : List Char := "See [RFC2119] and RFC 8174.".toList

def c7Data : TxtData :=
  match parseTxt statusHierStub c3Input with
  | .ok d => d
  | .error _ => {}

def c8StA : ScanState :=
  { d := { markers := { header := { start := 1, endL := 1, lastAuthor := 1, closed := true },
                        abstract := { start := 5 } },
           title := some "Title" },
    lineIdx := 6,
    currentSection := some SectionId.abstract }

def c8StB : ScanState :=
  match stepLine statusHierStub c8StA "1. Introduction".toList with
  | .ok s => s
  | .error _ => c8StA

def c8StC : ScanState :=
  { d := { markers := { introduction := { start := 7 } } },
    lineIdx := 8,
    currentSection := some SectionId.introduction }

def c8WitnessIn : String :=
  "Src  A. Bb\n\nTitle\nslug-line\nAbstract\n  Some text.\n1. Introduction\nBody text."

def c8Data : TxtData :=
  match parseTxt statusHierStub c8WitnessIn with
  | .ok d => d
  | .error _ => {}

/-! ## Claim theorems -/

/-- C10: in the CLI's JSON output mode, the emitted `file.size` field is
`0` for every document path and every finding list — the serialiser
hard-codes `size: 0`. -/
theorem c10_json_file_size_always_zero (docPath : String) (result : List Finding) :
    (jsonOutput docPath result).file.size = 0 :=
  rfl

/-- C1 counterexample: a run whose only finding is a Warning has zero
Error-severity findings, yet the JSON `result` field is `"fail"` — the
CLI tests `result.length > 0`, not the Error count, so the claim that
Warnings never change pass/fail is false. -/
theorem c1_counterexample_warning_only_run_fails :
    errorFindingCount
        [mkWarning "COMMENT_OUT_OF_CODE_BLOCK" "Found something which looks like a code comment."] = 0 ∧
    (jsonOutput "/tmp/draft.txt"
        [mkWarning "COMMENT_OUT_OF_CODE_BLOCK" "Found something which looks like a code comment."]).result
      = "fail" :=
  ⟨rfl, rfl⟩

/-- C1 amended: the CLI's JSON `result` is `"pass"` exactly when the run
produced no findings at all, and `"fail"` exactly when it produced at
least one finding of any severity (Warnings and Comments included). -/
theorem c1_amended_json_result_pass_iff_no_findings
    (docPath : String) (result : List Finding) :
    ((jsonOutput docPath result).result = "pass" ↔ result = []) ∧
    ((jsonOutput docPath result).result = "fail" ↔ result ≠ []) := by
  unfold jsonOutput
  cases result with
  | nil => simp
  | cons a l => simp

/-- C1 amended witness at a concrete path and the empty finding list. -/
theorem c1_amended_witness :
    ((jsonOutput "/tmp/draft.txt" []).result = "pass" ↔ ([] : List Finding) = []) ∧
    ((jsonOutput "/tmp/draft.txt" []).result = "fail" ↔ ([] : List Finding) ≠ []) :=
  c1_amended_json_result_pass_iff_no_findings "/tmp/draft.txt" []

/-- C2: in SUBMISSION mode each of the five reference validators
returns the empty finding list before touching the document, for every
document (TXT or XML) and every oracle. -/
theorem c2_submission_mode_suppresses_all_reference_validators
    (downrefOracle : List String → List String) (gsw : String → Option Nat)
    (rfcOracle : String → Option RfcInfo) (draftOracle : String → Option DraftInfo)
    (doc : ValDoc) :
    validateDownrefs downrefOracle doc .submission = .ok [] ∧
    validateNormativeReferences gsw rfcOracle doc .submission = .ok [] ∧
    validateUnclassifiedReferences rfcOracle doc .submission = .ok [] ∧
    validateInformativeReferences rfcOracle doc .submission = .ok [] ∧
    vlidateDraftReferences draftOracle doc .submission = .ok [] :=
  ⟨rfl, rfl, rfl, rfl, rfl⟩

/-- C3: the TXT parse is not a pure function of its input.  Parsing
`c3Input` with the module-level `SUBSECTION_PATTERN.lastIndex` in its
fresh-process state 0 tags the `[RFC2119]` reference-section entry with
`normative_references` and leaves `lastIndex = 27`; the byte-identical
re-parse that starts from that leftover state tags the same entry with
`null`, a structurally different Document. -/
theorem c3_txt_parse_not_idempotent_across_calls (sh : String → Option String) :
    (parseTxtSt sh 0 c3Input).map
        (fun p => (p.1.extractedElements.referenceSectionRfc, p.2))
      = .ok ([{ value := "2119", subsection := some SubsectionKind.normativeReferences }], 27) ∧
    (parseTxtSt sh 27 c3Input).map
        (fun p => (p.1.extractedElements.referenceSectionRfc, p.2))
      = .ok ([{ value := "2119", subsection := none }], 27) :=
  ⟨rfl, rfl⟩

/-- C6 counterexample: with a run of twenty spaces the parsed
`header.source` is `Short Source` followed by eighteen residual spaces,
not exactly `Short Source` — the greedy `left` group of
`LINE_VALUES_EXTRACT_RE` keeps all but the last two spaces of the run. -/
theorem c6_counterexample_source_keeps_residual_spaces :
    (parseTxt statusHierStub c6Input20).map (fun d => d.header.source)
      = .ok (some ("Short Source" ++ String.mk (List.replicate 18 ' '))) ∧
    ("Short Source" ++ String.mk (List.replicate 18 ' ')) ≠ "Short Source" :=
  ⟨rfl, by decide⟩

/-- C6 amended: on the spec's example line the authors list is exactly
`[{name: "J. Doe"}]` as claimed, but `header.source` is `Short Source`
padded with the space run minus its final two characters; `source` is
exactly `Short Source` when the run is exactly two spaces. -/
theorem c6_amended_header_split (sh : String → Option String) :
    ((parseTxt sh c6Input20).map (fun d => (d.header.source, d.header.authors))
      = .ok (some ("Short Source" ++ String.mk (List.replicate 18 ' ')),
             [{ name := "J. Doe", org := none }])) ∧
    ((parseTxt sh c6Input2).map (fun d => (d.header.source, d.header.authors))
      = .ok (some "Short Source", [{ name := "J. Doe", org := none }])) :=
  ⟨rfl, rfl⟩

/-- C7 counterexample: `RFC 1234` matches on two different lines outside
the references section, yet the parsed `nonReferenceSectionRfc` holds
the value once — the extraction loop guards the non-reference bucket
with `includes`, deduplicating it too, so the claim that such a value
appears twice is false. -/
theorem c7_counterexample_nonreference_bucket_dedups :
    rfcRefMatches (trimChars "Title RFC 1234".toList) = ["1234"] ∧
    rfcRefMatches (trimChars "Also RFC 1234 again".toList) = ["1234"] ∧
    (parseTxt statusHierStub c7Input).map
        (fun d => d.extractedElements.nonReferenceSectionRfc)
      = .ok ["1234"] :=
  ⟨rfl, rfl, rfl⟩

/-- C8 counterexample: after `1. References`, `2. Introduction`,
`3. References`, the references marker is closed with `end = 5` but its
`start` was overwritten to `7` by the re-opening heading (which resets
neither `closed` nor `end`), so a closed marker violates `end ≥ start`. -/
theorem c8_counterexample_reopened_marker_end_lt_start :
    (parseTxt statusHierStub c8Input).map
        (fun d => (d.markers.references.closed,
                   d.markers.references.start,
                   d.markers.references.endL))
      = .ok (true, 7, 5) ∧
    5 < 7 :=
  ⟨rfl, by decide⟩

/-- C9 counterexample: with two declarations on one line the greedy url
group swallows the second declaration, so only one `{name,type,url}`
entry is recorded (for `a`, with a url spanning into `b`'s declaration)
— the claim that each declaration yields its own entry is false. -/
theorem c9_counterexample_one_entry_for_two_declarations :
    (xmlExternalEntities c9OneLine).map (fun e => e.name) = ["a"] ∧
    (xmlExternalEntities c9OneLine).map (fun e => e.url)
      = ["u1\"> <!ENTITY b SYSTEM \"u2"] :=
  ⟨rfl, rfl⟩

/-- C9 amended: each leftmost non-overlapping match of the entity regex
is recorded as `{name,type,url}` and deleted (with one declaration per
line this is one entry per declaration, and the delegated text then
holds no declaration, as on `c9TwoLines`); a failure of the delegated
XML parser surfaces as `XML_PARSING_FAILED` carrying the underlying
message, and a success wraps the parsed tree with the recorded
entities. -/
theorem c9_amended_entity_extraction :
    ((xmlExternalEntities c9TwoLines
        = [{ original := "<!ENTITY a SYSTEM \"u1\">", name := "a", type := "SYSTEM", url := "u1" },
           { original := "<!ENTITY b PUBLIC \"u2\">", name := "b", type := "PUBLIC", url := "u2" }]) ∧
      xmlCleanRawText c9TwoLines = "\n\n<x/>" ∧
      xmlExternalEntities (xmlCleanRawText c9TwoLines) = []) ∧
    (∀ {α : Type} (xmlParserFn : String → Except String α) (raw fn msg : String),
      xmlParserFn (xmlCleanRawText raw) = .error msg →
      parseXmlDoc xmlParserFn raw fn = .error ("XML_PARSING_FAILED", msg)) ∧
    (∀ {α : Type} (xmlParserFn : String → Except String α) (raw fn : String) (t : α),
      xmlParserFn (xmlCleanRawText raw) = .ok t →
      parseXmlDoc xmlParserFn raw fn
        = .ok { filename := fn, externalEntities := xmlExternalEntities raw, data := t }) := by
  refine ⟨⟨rfl, rfl, rfl⟩, ?_, ?_⟩
  · intro α p raw fn msg h
    unfold parseXmlDoc
    rw [h]
  · intro α p raw fn t h
    unfold parseXmlDoc
    rw [h]

/-- C9 amended witness: a concrete failing parser and a concrete
succeeding parser, applied to `c9TwoLines`. -/
theorem c9_amended_entity_extraction_witness :
    parseXmlDoc (fun _ => (.error "boom" : Except String Unit)) c9TwoLines "d.xml"
      = .error ("XML_PARSING_FAILED", "boom") ∧
    parseXmlDoc (fun _ => (.ok () : Except String Unit)) c9TwoLines "d.xml"
      = .ok { filename := "d.xml", externalEntities := xmlExternalEntities c9TwoLines,
              data := () } :=
  ⟨c9_amended_entity_extraction.2.1 (fun _ => .error "boom") c9TwoLines "d.xml" "boom" rfl,
   c9_amended_entity_extraction.2.2 (fun _ => .ok ()) c9TwoLines "d.xml" () rfl⟩

/-- C5: a normative reference whose remote info has a defined status and
`obsoleted_by = ["9000"]` yields an `OBSOLETE_DOCUMENT` finding whose
message contains `replaced by: 9000`, as an Error in NORMAL mode and as
a Warning in FORGIVE_CHECKLIST mode, for every status-weight table and
every document carrying such an entry. -/
theorem c5_obsolete_document_error_normal_warning_forgive
    (gsw : String → Option Nat) (rfcOracle : String → Option RfcInfo)
    (ee : ExtractedElements) (entry : RefEntry) (info : RfcInfo) (st : String)
    (hmem : entry ∈ ee.referenceSectionRfc)
    (hsub : entry.subsection = some SubsectionKind.normativeReferences)
    (hnum : rfcNumberTest entry.value = true)
    (hfetch : rfcOracle entry.value = some info)
    (hstatus : info.status = some st)
    (hobs : info.obsoleted_by = ["9000"]) :
    (∃ res, validateNormativeReferences gsw rfcOracle (.txt ee) .normal = .ok res ∧
      ∃ f, f ∈ res ∧ f.severity = .error ∧ f.name = "OBSOLETE_DOCUMENT" ∧
        ∃ pre post, f.message.data = pre ++ "replaced by: 9000".data ++ post) ∧
    (∃ res, validateNormativeReferences gsw rfcOracle (.txt ee) .forgiveChecklist = .ok res ∧
      ∃ f, f ∈ res ∧ f.severity = .warning ∧ f.name = "OBSOLETE_DOCUMENT" ∧
        ∃ pre post, f.message.data = pre ++ "replaced by: 9000".data ++ post) := by
  constructor
  · refine ⟨_, rfl, ?_⟩
    refine ⟨mkError "OBSOLETE_DOCUMENT"
      ("The referenced document RFC " ++ entry.value ++
        " is obsolete and has been replaced by: " ++
        String.intercalate ", " info.obsoleted_by ++ ".")
      (some (rfcEditorInfoUrl info.rfc)), ?_, rfl, rfl, ?_⟩
    · apply List.mem_flatMap.2
      refine ⟨entry.value, List.mem_map.2 ⟨entry, List.mem_filter.2 ⟨hmem, ?_⟩, rfl⟩, ?_⟩
      · simp [hsub, hnum]
      · unfold normativeRfcFindings
        rw [hfetch]
        simp only [hstatus, hobs]
        apply List.mem_append_right
        simp
    · refine ⟨("The referenced document RFC " ++ entry.value ++
        " is obsolete and has been ").data, ".".data, ?_⟩
      rw [hobs]
      simp only [mkError, String.data_append, List.append_assoc, List.cons_append,
        List.nil_append]
      rfl
  · refine ⟨_, rfl, ?_⟩
    refine ⟨mkWarning "OBSOLETE_DOCUMENT"
      ("The referenced document RFC " ++ entry.value ++
        " is obsolete and has been replaced by: " ++
        String.intercalate ", " info.obsoleted_by ++ ".")
      (some (rfcEditorInfoUrl info.rfc)), ?_, rfl, rfl, ?_⟩
    · apply List.mem_flatMap.2
      refine ⟨entry.value, List.mem_map.2 ⟨entry, List.mem_filter.2 ⟨hmem, ?_⟩, rfl⟩, ?_⟩
      · simp [hsub, hnum]
      · unfold normativeRfcFindings
        rw [hfetch]
        simp only [hstatus, hobs]
        apply List.mem_append_right
        simp
    · refine ⟨("The referenced document RFC " ++ entry.value ++
        " is obsolete and has been ").data, ".".data, ?_⟩
      rw [hobs]
      simp only [mkWarning, String.data_append, List.append_assoc, List.cons_append,
        List.nil_append]
      rfl

/-- C5 witness: the obsoleted RFC 4086 entry of `witnessEe` under the
`witnessObsOracle` lookup. -/
theorem c5_obsolete_document_witness :
    (∃ res, validateNormativeReferences (fun _ => none) witnessObsOracle
        (.txt witnessEe) .normal = .ok res ∧
      ∃ f, f ∈ res ∧ f.severity = .error ∧ f.name = "OBSOLETE_DOCUMENT" ∧
        ∃ pre post, f.message.data = pre ++ "replaced by: 9000".data ++ post) ∧
    (∃ res, validateNormativeReferences (fun _ => none) witnessObsOracle
        (.txt witnessEe) .forgiveChecklist = .ok res ∧
      ∃ f, f ∈ res ∧ f.severity = .warning ∧ f.name = "OBSOLETE_DOCUMENT" ∧
        ∃ pre post, f.message.data = pre ++ "replaced by: 9000".data ++ post) :=
  c5_obsolete_document_error_normal_warning_forgive (fun _ => none) witnessObsOracle
    witnessEe { value := "4086", subsection := some SubsectionKind.normativeReferences }
    { rfc := some "4086", status := some "Proposed Standard", obsoleted_by := ["9000"] }
    "Proposed Standard" (by decide) rfl (by decide) rfl rfl rfl

/-- C4: (totality) on TXT documents the three status validators return
a finding list normally for every remote-lookup oracle and every mode;
(degradation) when the lookup for a reference yields absent data or data
without a status, the validator owning that reference's subsection emits
the `UNDEFINED_STATUS` Comment for it (outside SUBMISSION mode, in which
no lookup is performed at all). -/
theorem c4_undefined_status_comment_and_no_throw :
    (∀ (gsw : String → Option Nat) (rfcOracle : String → Option RfcInfo)
       (ee : ExtractedElements) (mode : Mode),
      (∃ l, validateNormativeReferences gsw rfcOracle (.txt ee) mode = .ok l) ∧
      (∃ l, validateUnclassifiedReferences rfcOracle (.txt ee) mode = .ok l) ∧
      (∃ l, validateInformativeReferences rfcOracle (.txt ee) mode = .ok l)) ∧
    (∀ (gsw : String → Option Nat) (rfcOracle : String → Option RfcInfo)
       (ee : ExtractedElements) (entry : RefEntry) (mode : Mode),
      mode ≠ .submission →
      entry ∈ ee.referenceSectionRfc →
      (rfcOracle entry.value = none ∨
        ∃ info, rfcOracle entry.value = some info ∧ info.status = none) →
      (entry.subsection = some SubsectionKind.normativeReferences →
        rfcNumberTest entry.value = true →
        ∃ res, validateNormativeReferences gsw rfcOracle (.txt ee) mode = .ok res ∧
          mkComment "UNDEFINED_STATUS"
            ("RFC " ++ entry.value ++ " does not have a defined status or could not be fetched.")
            (some (rfcEditorUrl entry.value)) ∈ res) ∧
      (entry.subsection = some SubsectionKind.unclassifiedReferences →
        ∃ res, validateUnclassifiedReferences rfcOracle (.txt ee) mode = .ok res ∧
          mkComment "UNDEFINED_STATUS"
            ("The unclassified reference " ++ entry.value ++
              " does not have a defined status or could not be fetched.")
            (some (rfcEditorUrl entry.value)) ∈ res) ∧
      (entry.subsection = some SubsectionKind.informativeReferences →
        ∃ res, validateInformativeReferences rfcOracle (.txt ee) mode = .ok res ∧
          mkComment "UNDEFINED_STATUS"
            ("The informative reference RFC " ++ entry.value ++
              " does not have a defined status or could not be fetched.")
            (some (rfcEditorUrl entry.value)) ∈ res)) := by
  constructor
  · intro gsw rfcOracle ee mode
    cases mode <;> exact ⟨⟨_, rfl⟩, ⟨_, rfl⟩, ⟨_, rfl⟩⟩
  · intro gsw rfcOracle ee entry mode hmode hmem horacle
    refine ⟨?_, ?_, ?_⟩
    · intro hsub hnum
      cases mode with
      | submission => exact absurd rfl hmode
      | normal =>
        refine ⟨_, rfl, ?_⟩
        apply List.mem_flatMap.2
        refine ⟨entry.value, List.mem_map.2 ⟨entry, List.mem_filter.2 ⟨hmem, ?_⟩, rfl⟩, ?_⟩
        · simp [hsub, hnum]
        · unfold normativeRfcFindings
          rcases horacle with h | ⟨info, hf, hs⟩
          · rw [h]; simp
          · rw [hf]; simp only [hs]; simp
      | forgiveChecklist =>
        refine ⟨_, rfl, ?_⟩
        apply List.mem_flatMap.2
        refine ⟨entry.value, List.mem_map.2 ⟨entry, List.mem_filter.2 ⟨hmem, ?_⟩, rfl⟩, ?_⟩
        · simp [hsub, hnum]
        · unfold normativeRfcFindings
          rcases horacle with h | ⟨info, hf, hs⟩
          · rw [h]; simp
          · rw [hf]; simp only [hs]; simp
    · intro hsub
      cases mode with
      | submission => exact absurd rfl hmode
      | normal =>
        refine ⟨_, rfl, ?_⟩
        apply List.mem_flatMap.2
        refine ⟨entry.value, List.mem_map.2 ⟨entry, List.mem_filter.2 ⟨hmem, ?_⟩, rfl⟩, ?_⟩
        · simp [hsub]
        · unfold unclassifiedRfcFindings
          rcases horacle with h | ⟨info, hf, hs⟩
          · rw [h]; simp
          · rw [hf]; simp only [hs]; simp
      | forgiveChecklist =>
        refine ⟨_, rfl, ?_⟩
        apply List.mem_flatMap.2
        refine ⟨entry.value, List.mem_map.2 ⟨entry, List.mem_filter.2 ⟨hmem, ?_⟩, rfl⟩, ?_⟩
        · simp [hsub]
        · unfold unclassifiedRfcFindings
          rcases horacle with h | ⟨info, hf, hs⟩
          · rw [h]; simp
          · rw [hf]; simp only [hs]; simp
    · intro hsub
      cases mode with
      | submission => exact absurd rfl hmode
      | normal =>
        refine ⟨_, rfl, ?_⟩
        apply List.mem_flatMap.2
        refine ⟨entry.value, List.mem_map.2 ⟨entry, List.mem_filter.2 ⟨hmem, ?_⟩, rfl⟩, ?_⟩
        · simp [hsub]
        · unfold informativeRfcFindings
          rcases horacle with h | ⟨info, hf, hs⟩
          · rw [h]; simp
          · rw [hf]; simp only [hs]; simp
      | forgiveChecklist =>
        refine ⟨_, rfl, ?_⟩
        apply List.mem_flatMap.2
        refine ⟨entry.value, List.mem_map.2 ⟨entry, List.mem_filter.2 ⟨hmem, ?_⟩, rfl⟩, ?_⟩
        · simp [hsub]
        · unfold informativeRfcFindings
          rcases horacle with h | ⟨info, hf, hs⟩
          · rw [h]; simp
          · rw [hf]; simp only [hs]; simp

/-- C4 witness: an always-absent oracle and a one-entry normative
document, at NORMAL mode. -/
theorem c4_undefined_status_comment_witness :
    (∃ l, validateNormativeReferences (fun _ => none) (fun _ => none)
        (.txt witnessEe) .normal = .ok l) ∧
    (∃ res, validateNormativeReferences (fun _ => none) (fun _ => none)
        (.txt witnessEe) .normal = .ok res ∧
      mkComment "UNDEFINED_STATUS"
        ("RFC " ++ "4086" ++ " does not have a defined status or could not be fetched.")
        (some (rfcEditorUrl "4086")) ∈ res) :=
  ⟨(c4_undefined_status_comment_and_no_throw.1 (fun _ => none) (fun _ => none)
      witnessEe .normal).1,
   (c4_undefined_status_comment_and_no_throw.2 (fun _ => none) (fun _ => none)
      witnessEe { value := "4086", subsection := some SubsectionKind.normativeReferences }
      .normal (by decide) (by decide) (Or.inl rfl)).1 rfl (by decide)⟩

/-! ## Lemmas about the dedup folds and the scanner steps -/

theorem insertIfAbsent_eq_of_mem {acc : List String} {v : String}
    (h : v ∈ acc) : insertIfAbsent acc v = acc := by
  simp [insertIfAbsent, h]

theorem insertIfAbsent_eq_of_not_mem {acc : List String} {v : String}
    (h : v ∉ acc) : insertIfAbsent acc v = acc ++ [v] := by
  simp [insertIfAbsent, h]

theorem mem_insertIfAbsent_of_mem {acc : List String} {x : String}
    (v : String) (h : x ∈ acc) : x ∈ insertIfAbsent acc v := by
  by_cases hv : v ∈ acc
  · rw [insertIfAbsent_eq_of_mem hv]; exact h
  · rw [insertIfAbsent_eq_of_not_mem hv]; exact List.mem_append_left _ h

theorem self_mem_insertIfAbsent (acc : List String) (v : String) :
    v ∈ insertIfAbsent acc v := by
  by_cases hv : v ∈ acc
  · rw [insertIfAbsent_eq_of_mem hv]; exact hv
  · rw [insertIfAbsent_eq_of_not_mem hv]
    exact List.mem_append_right _ (List.mem_singleton_self _)

theorem mem_foldl_insertIfAbsent_of_mem (vs : List String) (acc : List String)
    (x : String) (h : x ∈ acc) : x ∈ vs.foldl insertIfAbsent acc := by
  induction vs generalizing acc with
  | nil => exact h
  | cons v vs ih =>
    simp only [List.foldl_cons]
    exact ih _ (mem_insertIfAbsent_of_mem v h)

theorem mem_foldl_insertIfAbsent (vs : List String) (acc : List String)
    (v : String) (h : v ∈ vs) : v ∈ vs.foldl insertIfAbsent acc := by
  induction vs generalizing acc with
  | nil => cases h
  | cons a vs ih =>
    simp only [List.foldl_cons]
    rcases List.mem_cons.1 h with rfl | hv
    · exact mem_foldl_insertIfAbsent_of_mem _ _ _ (self_mem_insertIfAbsent acc v)
    · exact ih _ hv

theorem nodup_foldl_insertIfAbsent (vs : List String) (acc : List String)
    (h : acc.Nodup) : (vs.foldl insertIfAbsent acc).Nodup := by
  induction vs generalizing acc with
  | nil => exact h
  | cons v vs ih =>
    simp only [List.foldl_cons]
    apply ih
    by_cases hv : v ∈ acc
    · rw [insertIfAbsent_eq_of_mem hv]; exact h
    · rw [insertIfAbsent_eq_of_not_mem hv]
      simp only [List.nodup_append, List.nodup_cons, List.not_mem_nil, not_false_iff,
        List.nodup_nil, and_true, List.disjoint_singleton]
      exact ⟨h, trivial, hv⟩

theorem insertRefEntry_eq_of_any {sub : Option SubsectionKind} {acc : List RefEntry}
    {v : String} (h : (acc.any fun e => e.value = v) = true) :
    insertRefEntry sub acc v = acc := by
  simp [insertRefEntry, h]

theorem insertRefEntry_eq_of_not_any {sub : Option SubsectionKind} {acc : List RefEntry}
    {v : String} (h : ¬(acc.any fun e => e.value = v) = true) :
    insertRefEntry sub acc v = acc ++ [⟨v, sub⟩] := by
  simp only [insertRefEntry]
  rw [if_neg h]

theorem foldl_insertRefEntry_decomp (sub : Option SubsectionKind)
    (vs : List String) (acc : List RefEntry) :
    ∃ new, vs.foldl (insertRefEntry sub) acc = acc ++ new ∧
      ∀ e ∈ new, e.subsection = sub ∧ e.value ∈ vs := by
  induction vs generalizing acc with
  | nil => exact ⟨[], by simp, by simp⟩
  | cons v vs ih =>
    simp only [List.foldl_cons]
    by_cases hv : (acc.any fun e => e.value = v) = true
    · rw [insertRefEntry_eq_of_any hv]
      rcases ih acc with ⟨new, heq, hprops⟩
      refine ⟨new, heq, fun e he => ?_⟩
      exact ⟨(hprops e he).1, List.mem_cons_of_mem _ (hprops e he).2⟩
    · rw [insertRefEntry_eq_of_not_any hv]
      rcases ih (acc ++ [⟨v, sub⟩]) with ⟨new, heq, hprops⟩
      refine ⟨⟨v, sub⟩ :: new, by simpa using heq, fun e he => ?_⟩
      rcases List.mem_cons.1 he with rfl | he
      · exact ⟨rfl, List.mem_cons_self _ _⟩
      · exact ⟨(hprops e he).1, List.mem_cons_of_mem _ (hprops e he).2⟩

theorem mem_map_value_foldl_insertRefEntry_of_mem (sub : Option SubsectionKind)
    (vs : List String) (acc : List RefEntry) (x : String)
    (h : x ∈ acc.map RefEntry.value) :
    x ∈ (vs.foldl (insertRefEntry sub) acc).map RefEntry.value := by
  rcases foldl_insertRefEntry_decomp sub vs acc with ⟨new, heq, _⟩
  rw [heq, List.map_append]
  exact List.mem_append_left _ h

theorem mem_map_value_foldl_insertRefEntry (sub : Option SubsectionKind)
    (vs : List String) (acc : List RefEntry) (v : String) (h : v ∈ vs) :
    v ∈ (vs.foldl (insertRefEntry sub) acc).map RefEntry.value := by
  induction vs generalizing acc with
  | nil => cases h
  | cons a vs ih =>
    simp only [List.foldl_cons]
    rcases List.mem_cons.1 h with rfl | hv
    · apply mem_map_value_foldl_insertRefEntry_of_mem
      by_cases ha : (acc.any fun e => e.value = v) = true
      · rw [insertRefEntry_eq_of_any ha]
        rcases List.any_eq_true.1 ha with ⟨e, he, hev⟩
        exact List.mem_map.2 ⟨e, he, by simpa using hev⟩
      · rw [insertRefEntry_eq_of_not_any ha]
        simp
    · exact ih _ hv

theorem nodup_map_value_foldl_insertRefEntry (sub : Option SubsectionKind)
    (vs : List String) (acc : List RefEntry)
    (h : (acc.map RefEntry.value).Nodup) :
    ((vs.foldl (insertRefEntry sub) acc).map RefEntry.value).Nodup := by
  induction vs generalizing acc with
  | nil => exact h
  | cons v vs ih =>
    simp only [List.foldl_cons]
    apply ih
    by_cases hv : (acc.any fun e => e.value = v) = true
    · rw [insertRefEntry_eq_of_any hv]; exact h
    · rw [insertRefEntry_eq_of_not_any hv]
      simp only [List.map_append, List.map_cons, List.map_nil, List.nodup_append,
        List.nodup_cons, List.not_mem_nil, not_false_iff, List.nodup_nil, and_true,
        List.disjoint_singleton]
      refine ⟨h, trivial, ?_⟩
      intro hmem
      rcases List.mem_map.1 hmem with ⟨e, he, hev⟩
      exact hv (List.any_eq_true.2 ⟨e, he, by simpa using hev⟩)

/-! ### Record and frame lemmas for the scanner steps -/

theorem markersGet_set_self (m : Markers) (s : SectionId) (v : SectMarker) :
    (m.set s v).get s = v := by
  cases s <;> rfl

theorem markersGet_set_ne (m : Markers) (s s' : SectionId) (v : SectMarker)
    (h : s ≠ s') : (m.set s' v).get s = m.get s := by
  cases s <;> cases s' <;> simp_all [Markers.set, Markers.get]

theorem markersGet_header_update (m : Markers) (h : HeaderMarker) (s : SectionId) :
    ({ m with header := h } : Markers).get s = m.get s := by
  cases s <;> rfl

theorem markersGet_title_update (m : Markers) (x : Nat) (s : SectionId) :
    ({ m with title := x } : Markers).get s = m.get s := by
  cases s <;> rfl

theorem markersGet_slug_update (m : Markers) (x : Nat) (s : SectionId) :
    ({ m with slug := x } : Markers).get s = m.get s := by
  cases s <;> rfl

theorem markersHeader_set (m : Markers) (s : SectionId) (v : SectMarker) :
    (m.set s v).header = m.header := by
  cases s <;> rfl

theorem extractLineRefs_markers (st : ScanState) (t : List Char) :
    (extractLineRefs st t).d.markers = st.d.markers := rfl

theorem extractLineRefs_currentSection (st : ScanState) (t : List Char) :
    (extractLineRefs st t).currentSection = st.currentSection := rfl

theorem extractLineRefs_lineIdx (st : ScanState) (t : List Char) :
    (extractLineRefs st t).lineIdx = st.lineIdx := rfl

theorem extractLineRefs_title (st : ScanState) (t : List Char) :
    (extractLineRefs st t).d.title = st.d.title := rfl

theorem stepSubsection_d (st : ScanState) (t : List Char) :
    (stepSubsection st t).d = st.d := by
  unfold stepSubsection
  cases hf : findSubsectionMatcher t <;>
    by_cases h1 : ((subsectionTestSt st.subLastIndex t).1 && !tocPatternTest t) = true <;>
      simp [hf, h1]

theorem stepSubsection_currentSection (st : ScanState) (t : List Char) :
    (stepSubsection st t).currentSection = st.currentSection := by
  unfold stepSubsection
  cases hf : findSubsectionMatcher t <;>
    by_cases h1 : ((subsectionTestSt st.subLastIndex t).1 && !tocPatternTest t) = true <;>
      simp [hf, h1]

theorem stepSubsection_lineIdx (st : ScanState) (t : List Char) :
    (stepSubsection st t).lineIdx = st.lineIdx := by
  unfold stepSubsection
  cases hf : findSubsectionMatcher t <;>
    by_cases h1 : ((subsectionTestSt st.subLastIndex t).1 && !tocPatternTest t) = true <;>
      simp [hf, h1]

theorem stepContent_markers (st : ScanState) (t : List Char) :
    (stepContent st t).d.markers = st.d.markers := by
  unfold stepContent
  split
  · split <;> rfl
  · rfl

theorem stepContent_ee (st : ScanState) (t : List Char) :
    (stepContent st t).d.extractedElements = st.d.extractedElements := by
  unfold stepContent
  split
  · split <;> rfl
  · rfl

theorem stepContent_title (st : ScanState) (t : List Char) :
    (stepContent st t).d.title = st.d.title := by
  unfold stepContent
  split
  · split <;> rfl
  · rfl

theorem stepContent_currentSection (st : ScanState) (t : List Char) :
    (stepContent st t).currentSection = st.currentSection := by
  unfold stepContent
  split
  · split <;> rfl
  · rfl

theorem stepContent_lineIdx (st : ScanState) (t : List Char) :
    (stepContent st t).lineIdx = st.lineIdx := by
  unfold stepContent
  split
  · split <;> rfl
  · rfl

theorem headerFieldStep_frame (sh : String → Option String) (st : ScanState)
    (rawLine t : List Char) (n : Nat) (st' : ScanState)
    (h : headerFieldStep sh st rawLine t n = .ok st') :
    (∀ s, st'.d.markers.get s = st.d.markers.get s) ∧
    st'.d.markers.header.start = st.d.markers.header.start ∧
    st'.d.markers.header.closed = st.d.markers.header.closed ∧
    st'.d.markers.header.endL = n ∧
    st'.d.extractedElements = st.d.extractedElements ∧
    st'.d.title = st.d.title ∧
    st'.currentSection = st.currentSection ∧
    st'.lineIdx = st.lineIdx := by
  simp only [headerFieldStep, ScanState.updMarkers, ScanState.updData,
    ScanState.updHeader] at h
  split at h
  · cases h
  · cases h
    exact ⟨fun s => by cases s <;> rfl, rfl, rfl, rfl, rfl, rfl, rfl, rfl⟩

theorem openAbstract_abstract (st : ScanState) (n : Nat) :
    (openAbstract st n).d.markers.abstract = { st.d.markers.abstract with start := n } := rfl

theorem openAbstract_get_ne (st : ScanState) (n : Nat) (s : SectionId)
    (h : s ≠ SectionId.abstract) :
    (openAbstract st n).d.markers.get s = st.d.markers.get s := by
  cases s
  · exact absurd rfl h
  all_goals rfl

theorem openAbstract_currentSection (st : ScanState) (n : Nat) :
    (openAbstract st n).currentSection = some SectionId.abstract := rfl

theorem openAbstract_header (st : ScanState) (n : Nat) :
    (openAbstract st n).d.markers.header = st.d.markers.header := rfl

theorem openAbstract_lineIdx (st : ScanState) (n : Nat) :
    (openAbstract st n).lineIdx = st.lineIdx := rfl

theorem closeAbstract_abstract (st : ScanState) (n : Nat) :
    (closeAbstract st n).d.markers.abstract
      = { st.d.markers.abstract with endL := n - 1, closed := true } := rfl

theorem closeAbstract_get_ne (st : ScanState) (n : Nat) (s : SectionId)
    (h : s ≠ SectionId.abstract) :
    (closeAbstract st n).d.markers.get s = st.d.markers.get s := by
  cases s
  · exact absurd rfl h
  all_goals rfl

theorem closeAbstract_currentSection (st : ScanState) (n : Nat) :
    (closeAbstract st n).currentSection = st.currentSection := rfl

theorem closeAbstract_header (st : ScanState) (n : Nat) :
    (closeAbstract st n).d.markers.header = st.d.markers.header := rfl

theorem closeAbstract_lineIdx (st : ScanState) (n : Nat) :
    (closeAbstract st n).lineIdx = st.lineIdx := rfl

theorem stepAbstract_cases (st : ScanState) (r t : List Char) (n : Nat) :
    (t = "Abstract".toList ∧ stepAbstract st r t n = openAbstract st n) ∨
    (t ≠ "Abstract".toList ∧ st.d.markers.abstract.start ≠ 0 ∧
      st.d.markers.abstract.closed = false ∧ stepAbstract st r t n = closeAbstract st n) ∨
    stepAbstract st r t n = st := by
  unfold stepAbstract
  by_cases h1 : t = ['A', 'b', 's', 't', 'r', 'a', 'c', 't']
  · left
    exact ⟨h1, by simp [h1]⟩
  · by_cases h2a : st.d.markers.abstract.start = 0
    · right; right
      simp [h1, h2a]
    · by_cases h2b : st.d.markers.abstract.closed = false
      · by_cases h3a : listStartsWith ['S', 't', 'a', 't', 'u', 's', ' ', 'o', 'f'] t = true
        · right; left
          exact ⟨h1, h2a, h2b, by simp [h1, h2a, h2b, h3a]⟩
        · by_cases h3b : listStartsWith [' ', ' '] r = true
          · right; right
            simp [h1, h2a, h2b, h3a, h3b]
          · right; left
            refine ⟨h1, h2a, h2b, ?_⟩
            have h3b2 : listStartsWith [' ', ' '] r = false := by
              cases hx : listStartsWith [' ', ' '] r
              · rfl
              · exact absurd hx h3b
            simp [h1, h2a, h2b, h3a, h3b2]
      · right; right
        have h2b2 : st.d.markers.abstract.closed = true := by
          cases hx : st.d.markers.abstract.closed with
          | false => exact absurd hx h2b
          | true => rfl
        simp [h1, h2a, h2b2]

theorem closeCurrentSection_cases (st : ScanState) (n : Nat) :
    (closeCurrentSection st n = st ∧
      (st.currentSection = none ∨
        ∃ cs, st.currentSection = some cs ∧ (st.d.markers.get cs).closed = true)) ∨
    (∃ cs, st.currentSection = some cs ∧ (st.d.markers.get cs).closed = false ∧
      closeCurrentSection st n
        = st.updMarkers (fun m => m.set cs { m.get cs with endL := n - 1, closed := true })) := by
  unfold closeCurrentSection
  cases hcs : st.currentSection with
  | none => exact Or.inl ⟨rfl, Or.inl rfl⟩
  | some cs =>
    by_cases hc : (st.d.markers.get cs).closed = true
    · left
      exact ⟨by simp [hc], Or.inr ⟨cs, rfl, hc⟩⟩
    · right
      refine ⟨cs, rfl, by simpa using hc, by simp [hc]⟩

theorem closeCurrentSection_currentSection (st : ScanState) (n : Nat) :
    (closeCurrentSection st n).currentSection = st.currentSection := by
  rcases closeCurrentSection_cases st n with ⟨h, _⟩ | ⟨cs, _, _, h⟩
  · rw [h]
  · rw [h]; rfl

theorem closeCurrentSection_header (st : ScanState) (n : Nat) :
    (closeCurrentSection st n).d.markers.header = st.d.markers.header := by
  rcases closeCurrentSection_cases st n with ⟨h, _⟩ | ⟨cs, _, _, h⟩
  · rw [h]
  · rw [h]
    exact markersHeader_set _ _ _

theorem closeCurrentSection_lineIdx (st : ScanState) (n : Nat) :
    (closeCurrentSection st n).lineIdx = st.lineIdx := by
  rcases closeCurrentSection_cases st n with ⟨h, _⟩ | ⟨cs, _, _, h⟩
  · rw [h]
  · rw [h]; rfl

theorem openMatchedSection_get_self (st : ScanState) (s : SectionId) (n : Nat) :
    (openMatchedSection st s n).d.markers.get s
      = { st.d.markers.get s with start := n } := by
  unfold openMatchedSection
  simp [ScanState.updMarkers, ScanState.updData, markersGet_set_self]

theorem openMatchedSection_get_ne (st : ScanState) (s s' : SectionId) (n : Nat)
    (h : s' ≠ s) :
    (openMatchedSection st s n).d.markers.get s' = st.d.markers.get s' := by
  unfold openMatchedSection
  simp [ScanState.updMarkers, ScanState.updData, markersGet_set_ne _ _ _ _ h]

theorem openMatchedSection_currentSection (st : ScanState) (s : SectionId) (n : Nat) :
    (openMatchedSection st s n).currentSection = some s := rfl

theorem openMatchedSection_header (st : ScanState) (s : SectionId) (n : Nat) :
    (openMatchedSection st s n).d.markers.header = st.d.markers.header := by
  unfold openMatchedSection
  simp [ScanState.updMarkers, ScanState.updData, markersHeader_set]

theorem openMatchedSection_lineIdx (st : ScanState) (s : SectionId) (n : Nat) :
    (openMatchedSection st s n).lineIdx = st.lineIdx := rfl

theorem findSectionMatcher_ne_abstract (t : List Char) :
    findSectionMatcher t ≠ some SectionId.abstract := by
  intro h
  unfold findSectionMatcher at h
  rcases Option.map_eq_some'.mp h with ⟨m, hm, hfst⟩
  have hmem := List.mem_of_find?_eq_some hm
  simp only [sectionMatchers, List.mem_cons, List.not_mem_nil, or_false] at hmem
  rcases hmem with h1 | h1 | h1 | h1 | h1 <;> subst h1 <;> simp at hfst

theorem openAbstract_ee (st : ScanState) (n : Nat) :
    (openAbstract st n).d.extractedElements = st.d.extractedElements := rfl

theorem closeAbstract_ee (st : ScanState) (n : Nat) :
    (closeAbstract st n).d.extractedElements = st.d.extractedElements := rfl

theorem stepAbstract_ee (st : ScanState) (r t : List Char) (n : Nat) :
    (stepAbstract st r t n).d.extractedElements = st.d.extractedElements := by
  unfold stepAbstract
  split_ifs <;> rfl

theorem closeCurrentSection_ee (st : ScanState) (n : Nat) :
    (closeCurrentSection st n).d.extractedElements = st.d.extractedElements := by
  unfold closeCurrentSection
  rcases st.currentSection with _ | cs
  · rfl
  · dsimp only
    split_ifs <;> rfl

theorem openMatchedSection_ee (st : ScanState) (s : SectionId) (n : Nat) :
    (openMatchedSection st s n).d.extractedElements = st.d.extractedElements := rfl

theorem stepSection_ee (st : ScanState) (t : List Char) (n : Nat) :
    (stepSection st t n).d.extractedElements = st.d.extractedElements := by
  unfold stepSection
  split_ifs
  · rcases hf : findSectionMatcher t with _ | s
    · simp [closeCurrentSection_ee]
    · simp [openMatchedSection_ee, closeCurrentSection_ee]
  · rfl

theorem stepSubsection_ee (st : ScanState) (t : List Char) :
    (stepSubsection st t).d.extractedElements = st.d.extractedElements := by
  rw [stepSubsection_d]

theorem afterTitleFlow_ee (st : ScanState) (r t : List Char) (n : Nat) :
    (afterTitleFlow st r t n).d.extractedElements = st.d.extractedElements := by
  unfold afterTitleFlow
  split_ifs
  · rfl
  · rw [stepContent_ee, stepSubsection_ee, stepSection_ee, stepAbstract_ee]

theorem finalCloseScan_ee (st : ScanState) :
    (finalCloseScan st).d.extractedElements = st.d.extractedElements := by
  unfold finalCloseScan
  rcases st.currentSection with _ | cs
  · rfl
  · dsimp only
    split_ifs <;> rfl

theorem extractLineRefs_ee_ref (st : ScanState) (t : List Char)
    (h : st.currentSection = some SectionId.references) :
    (extractLineRefs st t).d.extractedElements.nonReferenceSectionRfc
      = st.d.extractedElements.nonReferenceSectionRfc ∧
    (extractLineRefs st t).d.extractedElements.referenceSectionRfc
      = (rfcRefMatches t).foldl (insertRefEntry st.currentSubSection)
          st.d.extractedElements.referenceSectionRfc := by
  simp [extractLineRefs, h]

theorem extractLineRefs_ee_nonref (st : ScanState) (t : List Char)
    (h : ¬st.currentSection = some SectionId.references) :
    (extractLineRefs st t).d.extractedElements.referenceSectionRfc
      = st.d.extractedElements.referenceSectionRfc ∧
    (extractLineRefs st t).d.extractedElements.nonReferenceSectionRfc
      = (rfcRefMatches t).foldl insertIfAbsent
          st.d.extractedElements.nonReferenceSectionRfc := by
  simp [extractLineRefs, h]

theorem extractLineRefs_rfc_nodup (st : ScanState) (t : List Char)
    (h : st.d.extractedElements.nonReferenceSectionRfc.Nodup ∧
      (st.d.extractedElements.referenceSectionRfc.map RefEntry.value).Nodup) :
    (extractLineRefs st t).d.extractedElements.nonReferenceSectionRfc.Nodup ∧
    ((extractLineRefs st t).d.extractedElements.referenceSectionRfc.map RefEntry.value).Nodup := by
  by_cases hcs : st.currentSection = some SectionId.references
  · obtain ⟨e1, e2⟩ := extractLineRefs_ee_ref st t hcs
    exact ⟨e1 ▸ h.1, e2 ▸ nodup_map_value_foldl_insertRefEntry _ _ _ h.2⟩
  · obtain ⟨e1, e2⟩ := extractLineRefs_ee_nonref st t hcs
    exact ⟨e2 ▸ nodup_foldl_insertIfAbsent _ _ h.1, e1 ▸ h.2⟩

theorem stepLine_ee_cases (sh : String → Option String) (st : ScanState)
    (l : List Char) (st' : ScanState) (h : stepLine sh st l = .ok st') :
    st'.d.extractedElements = st.d.extractedElements ∨
    st'.d.extractedElements
      = (extractLineRefs { st with lineIdx := st.lineIdx + 1 }
          (trimChars l)).d.extractedElements := by
  simp only [stepLine] at h
  split at h
  · cases h; left; rfl
  · split at h
    · cases h; left; rfl
    · split at h
      · split at h
        · cases h
        · cases h; right; rfl
      · split at h
        · split at h
          · cases h
            right
            rw [afterTitleFlow_ee]
            rfl
          · split at h
            · cases h
            · rename_i st4 heq
              cases h
              right
              rw [stepAbstract_ee]
              exact (headerFieldStep_frame sh _ _ _ _ _ heq).2.2.2.2.1
        · cases h
          right
          rw [afterTitleFlow_ee]

theorem runTxtLines_rfc_nodup (sh : String → Option String) (ls : List (List Char)) :
    ∀ st st', runTxtLines sh st ls = .ok st' →
      st.d.extractedElements.nonReferenceSectionRfc.Nodup ∧
      (st.d.extractedElements.referenceSectionRfc.map RefEntry.value).Nodup →
      st'.d.extractedElements.nonReferenceSectionRfc.Nodup ∧
      (st'.d.extractedElements.referenceSectionRfc.map RefEntry.value).Nodup := by
  induction ls with
  | nil =>
    intro st st' h hn
    simp only [runTxtLines] at h
    cases h
    exact hn
  | cons l ls ih =>
    intro st st' h hn
    simp only [runTxtLines] at h
    cases hsl : stepLine sh st l with
    | error e => rw [hsl] at h; cases h
    | ok st1 =>
      rw [hsl] at h
      apply ih st1 st' h
      rcases stepLine_ee_cases sh st l st1 hsl with he | he
      · exact ⟨by rw [he]; exact hn.1, by rw [he]; exact hn.2⟩
      · have hx := extractLineRefs_rfc_nodup { st with lineIdx := st.lineIdx + 1 }
          (trimChars l) ⟨hn.1, hn.2⟩
        exact ⟨by rw [he]; exact hx.1, by rw [he]; exact hx.2⟩

/-- **C7** (amended): on each line, RFC cross-reference matches are
bucketed by whether the current section is the references section: in
the references section the non-reference bucket is untouched and the
matches are appended as entries tagged with the current subsection,
deduplicated by value; outside it the reference bucket is untouched and
the matches land in the non-reference bucket — which is ALSO
deduplicated by value (`includes` guard), so in every parsed document
both buckets are duplicate-free. -/
theorem c7_amended_rfc_bucketing :
    (∀ st t, st.currentSection = some SectionId.references →
        (extractLineRefs st t).d.extractedElements.nonReferenceSectionRfc
          = st.d.extractedElements.nonReferenceSectionRfc ∧
        (∃ new, (extractLineRefs st t).d.extractedElements.referenceSectionRfc
            = st.d.extractedElements.referenceSectionRfc ++ new ∧
          ∀ e ∈ new, e.subsection = st.currentSubSection ∧ e.value ∈ rfcRefMatches t) ∧
        ∀ v ∈ rfcRefMatches t,
          v ∈ ((extractLineRefs st t).d.extractedElements.referenceSectionRfc).map
                RefEntry.value) ∧
    (∀ st t, st.currentSection ≠ some SectionId.references →
        (extractLineRefs st t).d.extractedElements.referenceSectionRfc
          = st.d.extractedElements.referenceSectionRfc ∧
        ∀ v ∈ rfcRefMatches t,
          v ∈ (extractLineRefs st t).d.extractedElements.nonReferenceSectionRfc) ∧
    (∀ sh txt d, parseTxt sh txt = .ok d →
        d.extractedElements.nonReferenceSectionRfc.Nodup ∧
        (d.extractedElements.referenceSectionRfc.map RefEntry.value).Nodup) := by
  refine ⟨?_, ?_, ?_⟩
  · intro st t hcs
    obtain ⟨e1, e2⟩ := extractLineRefs_ee_ref st t hcs
    refine ⟨e1, ?_, ?_⟩
    · rcases foldl_insertRefEntry_decomp st.currentSubSection (rfcRefMatches t)
        st.d.extractedElements.referenceSectionRfc with ⟨new, hnew, hprop⟩
      exact ⟨new, by rw [e2, hnew], hprop⟩
    · intro v hv
      rw [e2]
      exact mem_map_value_foldl_insertRefEntry _ _ _ _ hv
  · intro st t hcs
    obtain ⟨e1, e2⟩ := extractLineRefs_ee_nonref st t hcs
    refine ⟨e1, ?_⟩
    intro v hv
    rw [e2]
    exact mem_foldl_insertIfAbsent _ _ _ hv
  · intro sh txt d h
    unfold parseTxt parseTxtSt at h
    cases hrun : runTxtLines sh { subLastIndex := 0 } (splitLines txt.toList) with
    | error e =>
      rw [hrun] at h
      exact absurd h (by simp [Except.map])
    | ok stf =>
      rw [hrun] at h
      simp only [Except.map, Except.ok.injEq] at h
      have hn := runTxtLines_rfc_nodup sh (splitLines txt.toList) _ _ hrun
        ⟨by simp, by simp⟩
      rw [← h, finalCloseScan_ee]
      exact hn

theorem c7_amended_rfc_bucketing_witness :
    "2119" ∈ ((extractLineRefs c7StRefs c7Line).d.extractedElements.referenceSectionRfc).map
        RefEntry.value ∧
    (extractLineRefs c7StRefs c7Line).d.extractedElements.nonReferenceSectionRfc = [] ∧
    "8174" ∈ (extractLineRefs c7StBody c7Line).d.extractedElements.nonReferenceSectionRfc ∧
    (extractLineRefs c7StBody c7Line).d.extractedElements.referenceSectionRfc = [] ∧
    c7Data.extractedElements.nonReferenceSectionRfc.Nodup ∧
    (c7Data.extractedElements.referenceSectionRfc.map RefEntry.value).Nodup := by
  obtain ⟨p1, p2, p3⟩ := c7_amended_rfc_bucketing
  obtain ⟨q1, q2, q3⟩ := p1 c7StRefs c7Line rfl
  obtain ⟨r1, r2⟩ := p2 c7StBody c7Line (by decide)
  obtain ⟨s1, s2⟩ := p3 statusHierStub c3Input c7Data rfl
  exact ⟨q3 "2119" (by decide), q1, r2 "8174" (by decide), r1, s1, s2⟩


theorem SectInvB_mono (M : ScanState) (b c : Nat) (hbc : b ≤ c)
    (h : SectInvB M b) : SectInvB M c := by
  intro s
  obtain ⟨h1, h2, h3, h4⟩ := h s
  exact ⟨h1, h2, fun hs => le_trans (h3 hs) hbc, h4⟩

theorem opensSection_true_abstract (rawLine : List Char)
    (hpb : (rawLine.any fun c => c = Char.ofNat 12) = false)
    (hne : (trimChars rawLine).isEmpty = false)
    (habs : trimChars rawLine = "Abstract".toList) :
    opensSection rawLine SectionId.abstract = true := by
  simp [opensSection, hpb, hne, habs]

theorem opensSection_true_matched (rawLine : List Char) (s : SectionId)
    (hpb : (rawLine.any fun c => c = Char.ofNat 12) = false)
    (hne : (trimChars rawLine).isEmpty = false)
    (hs : s ≠ SectionId.abstract)
    (hgate : (sectionPatternTest (trimChars rawLine)
        || authorSectionTest (trimChars rawLine)) = true)
    (hm : findSectionMatcher (trimChars rawLine) = some s) :
    opensSection rawLine s = true := by
  cases s <;> simp [opensSection, hpb, hne, hgate, hm] at *

theorem gate_abstract_false :
    (sectionPatternTest "Abstract".toList || authorSectionTest "Abstract".toList) = false := by
  decide

theorem SectInvB_congr (M M' : ScanState) (b : Nat)
    (hm : M'.d.markers = M.d.markers) (hc : M'.currentSection = M.currentSection)
    (h : SectInvB M b) : SectInvB M' b := by
  intro s
  obtain ⟨h1, h2, h3, h4⟩ := h s
  rw [hm, hc]
  exact ⟨h1, h2, h3, h4⟩

theorem stepSection_inv (M1 : ScanState) (rawLine t : List Char) (n : Nat)
    (ht : t = trimChars rawLine)
    (hpb : (rawLine.any fun c => c = Char.ofNat 12) = false)
    (hne : t.isEmpty = false)
    (hn : 1 ≤ n)
    (hb : SectInvB M1 (n - 1))
    (hbud : ∀ s, opensSection rawLine s = true → (M1.d.markers.get s).start = 0) :
    SectInvB (stepSection M1 t n) n ∧
    (∀ s, ((stepSection M1 t n).d.markers.get s).start ≠ 0 →
      (M1.d.markers.get s).start ≠ 0 ∨ opensSection rawLine s = true) ∧
    (stepSection M1 t n).d.markers.header = M1.d.markers.header := by
  by_cases hgate : (sectionPatternTest t || authorSectionTest t) = true
  · rcases hm : findSectionMatcher t with _ | s₀
    · -- matched nothing: close the current section, clear currentSection
      have hstep : stepSection M1 t n = { closeCurrentSection M1 n with currentSection := none } := by
        simp [stepSection, hgate, hm]
      rcases closeCurrentSection_cases M1 n with ⟨hid, _⟩ | ⟨cs, hcs, hncl, hcl⟩
      · rw [hstep, hid]
        refine ⟨?_, ?_, rfl⟩
        · intro s
          obtain ⟨h1, h2, h3, h4⟩ := hb s
          exact ⟨h1, h2, fun hs => le_trans (h3 hs) (Nat.sub_le n 1), fun hcur => by cases hcur⟩
        · intro s hs
          exact Or.inl hs
      · have hcs0 : (M1.d.markers.get cs).start ≠ 0 := (hb cs).2.2.2 hcs
        have hgetc : ∀ s, ((closeCurrentSection M1 n).d.markers.get s)
            = if s = cs then { M1.d.markers.get cs with endL := n - 1, closed := true }
              else M1.d.markers.get s := by
          intro s
          rw [hcl]
          by_cases hss : s = cs
          · subst hss
            simp [ScanState.updMarkers, ScanState.updData, markersGet_set_self]
          · simp [ScanState.updMarkers, ScanState.updData,
              markersGet_set_ne _ _ _ _ hss, hss]
        rw [hstep]
        refine ⟨?_, ?_, ?_⟩
        · intro s
          rw [show (({ closeCurrentSection M1 n with currentSection := none } : ScanState).d.markers.get s)
              = (closeCurrentSection M1 n).d.markers.get s from rfl, hgetc]
          by_cases hscs : s = cs
          · subst hscs
            rw [if_pos rfl]
            refine ⟨fun _ => ?_, fun _ => hcs0, fun _ => ?_, fun hcur => by cases hcur⟩
            · show (M1.d.markers.get s).start ≤ n - 1
              exact (hb s).2.2.1 hcs0
            · show (M1.d.markers.get s).start ≤ n
              exact le_trans ((hb s).2.2.1 hcs0) (Nat.sub_le n 1)
          · rw [if_neg hscs]
            obtain ⟨h1, h2, h3, h4⟩ := hb s
            exact ⟨h1, h2, fun hs => le_trans (h3 hs) (Nat.sub_le n 1), fun hcur => by cases hcur⟩
        · intro s hs
          rw [show (({ closeCurrentSection M1 n with currentSection := none } : ScanState).d.markers.get s)
              = (closeCurrentSection M1 n).d.markers.get s from rfl, hgetc] at hs
          by_cases hscs : s = cs
          · subst hscs
            exact Or.inl hcs0
          · rw [if_neg hscs] at hs
            exact Or.inl hs
        · rw [show (({ closeCurrentSection M1 n with currentSection := none } : ScanState).d.markers.header)
              = (closeCurrentSection M1 n).d.markers.header from rfl, hcl]
          simp [ScanState.updMarkers, ScanState.updData, markersHeader_set]
    · -- matched a named section
      have hstep : stepSection M1 t n = openMatchedSection (closeCurrentSection M1 n) s₀ n := by
        simp [stepSection, hgate, hm]
      have hs0ne : s₀ ≠ SectionId.abstract := by
        intro hcon
        subst hcon
        exact findSectionMatcher_ne_abstract t hm
      have hopen : opensSection rawLine s₀ = true :=
        opensSection_true_matched rawLine s₀ hpb (ht ▸ hne) hs0ne (ht ▸ hgate) (ht ▸ hm)
      have hstart0 : (M1.d.markers.get s₀).start = 0 := hbud s₀ hopen
      have hclf : (M1.d.markers.get s₀).closed = false := by
        cases hx : (M1.d.markers.get s₀).closed
        · rfl
        · exact absurd hstart0 ((hb s₀).2.1 hx)
      have hgetc : ∀ s, ((closeCurrentSection M1 n).d.markers.get s)
          = if s = s₀ then M1.d.markers.get s₀
            else (closeCurrentSection M1 n).d.markers.get s := by
        intro s
        by_cases hss : s = s₀
        · subst hss
          rw [if_pos rfl]
          rcases closeCurrentSection_cases M1 n with ⟨hid, _⟩ | ⟨cs, hcs, hncl, hcl⟩
          · rw [hid]
          · have hcs0 : (M1.d.markers.get cs).start ≠ 0 := (hb cs).2.2.2 hcs
            have hcsne : s ≠ cs := by
              intro hcon; rw [← hcon] at hcs0; exact hcs0 hstart0
            rw [hcl]
            simp [ScanState.updMarkers, ScanState.updData,
              markersGet_set_ne _ _ _ _ hcsne]
        · rw [if_neg hss]
      -- the close step only ever closes an already-opened section at n - 1
      have hclo : ∀ s, ¬s = s₀ →
          ((closeCurrentSection M1 n).d.markers.get s).closed = true →
            ((closeCurrentSection M1 n).d.markers.get s).start ≤
              ((closeCurrentSection M1 n).d.markers.get s).endL ∧
            ((closeCurrentSection M1 n).d.markers.get s).start ≠ 0 := by
        intro s hss
        rcases closeCurrentSection_cases M1 n with ⟨hid, _⟩ | ⟨cs, hcs, hncl, hcl⟩
        · rw [hid]
          intro hc
          exact ⟨(hb s).1 hc, (hb s).2.1 hc⟩
        · have hcs0 : (M1.d.markers.get cs).start ≠ 0 := (hb cs).2.2.2 hcs
          rw [hcl]
          by_cases hsc : s = cs
          · subst hsc
            simp only [ScanState.updMarkers, ScanState.updData, markersGet_set_self]
            intro _
            exact ⟨(hb s).2.2.1 hcs0, hcs0⟩
          · simp only [ScanState.updMarkers, ScanState.updData,
              markersGet_set_ne _ _ _ _ hsc]
            intro hc
            exact ⟨(hb s).1 hc, (hb s).2.1 hc⟩
      have hcst : ∀ s, ((closeCurrentSection M1 n).d.markers.get s).start
          = (M1.d.markers.get s).start := by
        intro s
        rcases closeCurrentSection_cases M1 n with ⟨hid, _⟩ | ⟨cs, hcs, hncl, hcl⟩
        · rw [hid]
        · rw [hcl]
          by_cases hsc : s = cs
          · subst hsc
            simp [ScanState.updMarkers, ScanState.updData, markersGet_set_self]
          · simp [ScanState.updMarkers, ScanState.updData,
              markersGet_set_ne _ _ _ _ hsc]
      rw [hstep]
      refine ⟨?_, ?_, ?_⟩
      · intro s
        by_cases hss : s = s₀
        · subst hss
          have hms : (openMatchedSection (closeCurrentSection M1 n) s n).d.markers.get s
              = { M1.d.markers.get s with start := n } := by
            rw [openMatchedSection_get_self, hgetc, if_pos rfl]
          rw [hms, openMatchedSection_currentSection]
          refine ⟨fun hc => ?_, fun hc => ?_, fun _ => ?_, fun _ => ?_⟩
          · exact absurd (show (M1.d.markers.get s).closed = true from hc) (by rw [hclf]; exact Bool.false_ne_true)
          · exact absurd (show (M1.d.markers.get s).closed = true from hc) (by rw [hclf]; exact Bool.false_ne_true)
          · show n ≤ n
            exact le_refl n
          · show n ≠ 0
            omega
        · have hms : (openMatchedSection (closeCurrentSection M1 n) s₀ n).d.markers.get s
              = (closeCurrentSection M1 n).d.markers.get s :=
            openMatchedSection_get_ne _ _ _ _ hss
          rw [hms, openMatchedSection_currentSection]
          refine ⟨fun hc => (hclo s hss hc).1, fun hc => (hclo s hss hc).2,
            fun hs => ?_, fun hcur => ?_⟩
          · rw [hcst] at hs ⊢
            exact le_trans ((hb s).2.2.1 hs) (Nat.sub_le n 1)
          · cases hcur
            exact absurd rfl hss
      · intro s hs
        by_cases hss : s = s₀
        · subst hss
          exact Or.inr hopen
        · rw [openMatchedSection_get_ne _ _ _ _ hss, hcst] at hs
          exact Or.inl hs
      · rw [openMatchedSection_header]
        rcases closeCurrentSection_cases M1 n with ⟨hid, _⟩ | ⟨cs, hcs, hncl, hcl⟩
        · rw [hid]
        · rw [hcl]
          simp [ScanState.updMarkers, ScanState.updData, markersHeader_set]
  · -- heading gate failed: no change
    have hstep : stepSection M1 t n = M1 := by
      simp [stepSection, hgate]
    rw [hstep]
    exact ⟨SectInvB_mono M1 (n - 1) n (Nat.sub_le n 1) hb, fun s hs => Or.inl hs, rfl⟩

theorem stepAbstract_inv (M : ScanState) (rawLine t : List Char) (n : Nat)
    (ht : t = trimChars rawLine)
    (hpb : (rawLine.any fun c => c = Char.ofNat 12) = false)
    (hne : t.isEmpty = false)
    (hn : 1 ≤ n)
    (hb : SectInvB M (n - 1))
    (hbud : ∀ s, opensSection rawLine s = true → (M.d.markers.get s).start = 0) :
    SectInvB (stepAbstract M rawLine t n) n ∧
    (∀ s, ((stepAbstract M rawLine t n).d.markers.get s).start ≠ 0 →
      (M.d.markers.get s).start ≠ 0 ∨ opensSection rawLine s = true) ∧
    (stepAbstract M rawLine t n).d.markers.header = M.d.markers.header := by
  rcases stepAbstract_cases M rawLine t n with ⟨habs, heq⟩ | ⟨habs, hst0, hclf, heq⟩ | heq
  · have hopen : opensSection rawLine SectionId.abstract = true :=
      opensSection_true_abstract rawLine hpb (ht ▸ hne) (ht ▸ habs)
    have hstart0 : (M.d.markers.get SectionId.abstract).start = 0 := hbud _ hopen
    have hclf : (M.d.markers.get SectionId.abstract).closed = false := by
      cases hx : (M.d.markers.get SectionId.abstract).closed
      · rfl
      · exact absurd hstart0 ((hb SectionId.abstract).2.1 hx)
    rw [heq]
    refine ⟨?_, ?_, openAbstract_header M n⟩
    · intro s
      by_cases hsa : s = SectionId.abstract
      · subst hsa
        have hga : (openAbstract M n).d.markers.get SectionId.abstract
            = { M.d.markers.get SectionId.abstract with start := n } := rfl
        rw [hga, openAbstract_currentSection]
        refine ⟨fun hc => absurd (show (M.d.markers.get SectionId.abstract).closed = true from hc)
              (by rw [hclf]; exact Bool.false_ne_true),
            fun hc => absurd (show (M.d.markers.get SectionId.abstract).closed = true from hc)
              (by rw [hclf]; exact Bool.false_ne_true),
            fun _ => ?_, fun _ => ?_⟩
        · show n ≤ n
          exact le_refl n
        · show n ≠ 0
          omega
      · rw [openAbstract_get_ne M n s hsa, openAbstract_currentSection]
        obtain ⟨h1, h2, h3, h4⟩ := hb s
        refine ⟨h1, h2, fun hs => le_trans (h3 hs) (Nat.sub_le n 1), fun hcur => ?_⟩
        cases hcur
        exact absurd rfl hsa
    · intro s hs
      by_cases hsa : s = SectionId.abstract
      · subst hsa
        exact Or.inr hopen
      · rw [openAbstract_get_ne M n s hsa] at hs
        exact Or.inl hs
  · rw [heq]
    have hst0g : (M.d.markers.get SectionId.abstract).start ≠ 0 := hst0
    refine ⟨?_, ?_, closeAbstract_header M n⟩
    · intro s
      by_cases hsa : s = SectionId.abstract
      · subst hsa
        have hga : (closeAbstract M n).d.markers.get SectionId.abstract
            = { M.d.markers.get SectionId.abstract with endL := n - 1, closed := true } := rfl
        rw [hga, closeAbstract_currentSection]
        refine ⟨fun _ => ?_, fun _ => hst0g, fun _ => ?_, fun _ => hst0g⟩
        · show (M.d.markers.get SectionId.abstract).start ≤ n - 1
          exact (hb SectionId.abstract).2.2.1 hst0g
        · show (M.d.markers.get SectionId.abstract).start ≤ n
          exact le_trans ((hb SectionId.abstract).2.2.1 hst0g) (Nat.sub_le n 1)
      · rw [closeAbstract_get_ne M n s hsa, closeAbstract_currentSection]
        obtain ⟨h1, h2, h3, h4⟩ := hb s
        exact ⟨h1, h2, fun hs => le_trans (h3 hs) (Nat.sub_le n 1), h4⟩
    · intro s hs
      by_cases hsa : s = SectionId.abstract
      · subst hsa
        exact Or.inl hst0g
      · rw [closeAbstract_get_ne M n s hsa] at hs
        exact Or.inl hs
  · rw [heq]
    exact ⟨SectInvB_mono M (n - 1) n (Nat.sub_le n 1) hb, fun s hs => Or.inl hs, rfl⟩

theorem stepAbstract_ne_facts (M : ScanState) (rawLine t : List Char) (n : Nat)
    (habs : t ≠ "Abstract".toList)
    (hb : SectInvB M (n - 1)) :
    SectInvB (stepAbstract M rawLine t n) (n - 1) ∧
    (∀ s, ((stepAbstract M rawLine t n).d.markers.get s).start = (M.d.markers.get s).start) ∧
    (stepAbstract M rawLine t n).currentSection = M.currentSection ∧
    (stepAbstract M rawLine t n).d.markers.header = M.d.markers.header := by
  rcases stepAbstract_cases M rawLine t n with ⟨habs2, _⟩ | ⟨_, hst0, hclf, heq⟩ | heq
  · exact absurd habs2 habs
  · rw [heq]
    have hst0g : (M.d.markers.get SectionId.abstract).start ≠ 0 := hst0
    have hstarts : ∀ s, ((closeAbstract M n).d.markers.get s).start
        = (M.d.markers.get s).start := by
      intro s
      by_cases hsa : s = SectionId.abstract
      · subst hsa
        rfl
      · rw [closeAbstract_get_ne M n s hsa]
    refine ⟨?_, hstarts, closeAbstract_currentSection M n, closeAbstract_header M n⟩
    intro s
    by_cases hsa : s = SectionId.abstract
    · subst hsa
      have hga : (closeAbstract M n).d.markers.get SectionId.abstract
          = { M.d.markers.get SectionId.abstract with endL := n - 1, closed := true } := rfl
      rw [hga, closeAbstract_currentSection]
      refine ⟨fun _ => ?_, fun _ => hst0g, fun _ => ?_, fun _ => hst0g⟩
      · show (M.d.markers.get SectionId.abstract).start ≤ n - 1
        exact (hb SectionId.abstract).2.2.1 hst0g
      · show (M.d.markers.get SectionId.abstract).start ≤ n - 1
        exact (hb SectionId.abstract).2.2.1 hst0g
    · rw [closeAbstract_get_ne M n s hsa, closeAbstract_currentSection]
      exact hb s
  · rw [heq]
    exact ⟨hb, fun s => rfl, rfl, rfl⟩

theorem chain_inv (M : ScanState) (rawLine t : List Char) (n : Nat)
    (ht : t = trimChars rawLine)
    (hpb : (rawLine.any fun c => c = Char.ofNat 12) = false)
    (hne : t.isEmpty = false)
    (hn : 1 ≤ n)
    (hb : SectInvB M (n - 1))
    (hbud : ∀ s, opensSection rawLine s = true → (M.d.markers.get s).start = 0) :
    SectInvB (stepContent (stepSubsection (stepSection (stepAbstract M rawLine t n) t n) t) t) n ∧
    (∀ s, ((stepContent (stepSubsection (stepSection (stepAbstract M rawLine t n) t n) t)
        t).d.markers.get s).start ≠ 0 →
      (M.d.markers.get s).start ≠ 0 ∨ opensSection rawLine s = true) ∧
    (stepContent (stepSubsection (stepSection (stepAbstract M rawLine t n) t n) t)
        t).d.markers.header = M.d.markers.header := by
  have hmark : (stepContent (stepSubsection (stepSection (stepAbstract M rawLine t n) t n) t)
      t).d.markers = (stepSection (stepAbstract M rawLine t n) t n).d.markers := by
    rw [stepContent_markers, stepSubsection_d]
  have hcur : (stepContent (stepSubsection (stepSection (stepAbstract M rawLine t n) t n) t)
      t).currentSection = (stepSection (stepAbstract M rawLine t n) t n).currentSection := by
    rw [stepContent_currentSection, stepSubsection_currentSection]
  by_cases habs : t = "Abstract".toList
  · have hgateF : (sectionPatternTest t || authorSectionTest t) = false := by
      rw [habs]
      exact gate_abstract_false
    have hss : stepSection (stepAbstract M rawLine t n) t n = stepAbstract M rawLine t n := by
      simp [stepSection, hgateF]
    obtain ⟨ha1, ha2, ha3⟩ := stepAbstract_inv M rawLine t n ht hpb hne hn hb hbud
    refine ⟨SectInvB_congr _ _ n (by rw [hmark, hss]) (by rw [hcur, hss]) ha1,
        fun s hs => ha2 s ?_, by rw [hmark, hss, ha3]⟩
    rw [hmark, hss] at hs
    exact hs
  · obtain ⟨hb1, hstarts1, hcur1, hh1⟩ := stepAbstract_ne_facts M rawLine t n habs hb
    have hbud1 : ∀ s, opensSection rawLine s = true →
        ((stepAbstract M rawLine t n).d.markers.get s).start = 0 := by
      intro s hsOpen
      rw [hstarts1 s]
      exact hbud s hsOpen
    obtain ⟨hs1, hs2, hs3⟩ := stepSection_inv (stepAbstract M rawLine t n) rawLine t n
      ht hpb hne hn hb1 hbud1
    refine ⟨SectInvB_congr _ _ n hmark hcur hs1, fun s hs => ?_, by rw [hmark, hs3, hh1]⟩
    rw [hmark] at hs
    rcases hs2 s hs with h | h
    · rw [hstarts1 s] at h
      exact Or.inl h
    · exact Or.inr h

theorem budget_transfer (l : List Char) (rest : List (List Char)) (p : List Char → Bool)
    (oldP newP : Prop) [Decidable oldP] [Decidable newP]
    (h5 : (l :: rest).countP p + (if oldP then 1 else 0) ≤ 1)
    (himp : newP → oldP ∨ p l = true) :
    rest.countP p + (if newP then 1 else 0) ≤ 1 := by
  rw [List.countP_cons] at h5
  by_cases hnew : newP
  · rcases himp hnew with hold | hpl
    · rw [if_pos hold] at h5
      rw [if_pos hnew]
      omega
    · rw [if_pos hnew]
      rw [if_pos hpl] at h5
      omega
  · rw [if_neg hnew]
    omega

theorem budget_opens_start0 (l : List Char) (rest : List (List Char)) (p : List Char → Bool)
    (P : Prop) [Decidable P]
    (h5 : (l :: rest).countP p + (if P then 1 else 0) ≤ 1)
    (hpl : p l = true) : ¬P := by
  intro hP
  rw [List.countP_cons, if_pos hpl, if_pos hP] at h5
  omega

theorem stepAbstract_lineIdx (st : ScanState) (r t : List Char) (n : Nat) :
    (stepAbstract st r t n).lineIdx = st.lineIdx := by
  rcases stepAbstract_cases st r t n with ⟨_, heq⟩ | ⟨_, _, _, heq⟩ | heq <;> rw [heq]
  · exact openAbstract_lineIdx st n
  · exact closeAbstract_lineIdx st n

theorem stepSection_lineIdx (st : ScanState) (t : List Char) (n : Nat) :
    (stepSection st t n).lineIdx = st.lineIdx := by
  unfold stepSection
  split_ifs
  · rcases hm : findSectionMatcher t with _ | s
    · simp only []
      rw [show ({ closeCurrentSection st n with currentSection := none } : ScanState).lineIdx
          = (closeCurrentSection st n).lineIdx from rfl]
      exact closeCurrentSection_lineIdx st n
    · simp only []
      rw [openMatchedSection_lineIdx, closeCurrentSection_lineIdx]
  · rfl

theorem chainSteps_lineIdx (M : ScanState) (r t : List Char) (n : Nat) :
    (stepContent (stepSubsection (stepSection (stepAbstract M r t n) t n) t) t).lineIdx
      = M.lineIdx := by
  rw [stepContent_lineIdx, stepSubsection_lineIdx, stepSection_lineIdx, stepAbstract_lineIdx]

theorem markersGet_header_title_update (m : Markers) (hd : HeaderMarker) (x : Nat)
    (s : SectionId) :
    ({ m with header := hd, title := x } : Markers).get s = m.get s := by
  cases s <;> rfl

theorem pre_facts (st M : ScanState) (l : List Char) (rest : List (List Char))
    (inv : ScanInv st (l :: rest))
    (hg : ∀ s, M.d.markers.get s = st.d.markers.get s)
    (hcs : M.currentSection = st.currentSection) :
    SectInvB M st.lineIdx ∧
    ∀ s, opensSection l s = true → (M.d.markers.get s).start = 0 := by
  obtain ⟨_, _, ihs⟩ := inv
  constructor
  · intro s
    obtain ⟨c1, c2, c3, c4, c5⟩ := ihs s
    rw [hg s, hcs]
    exact ⟨c1, c2, c3, c4⟩
  · intro s hsOpen
    rw [hg s]
    exact not_not.mp (budget_opens_start0 l rest _ _ (ihs s).2.2.2.2 hsOpen)

theorem stepLine_id_branch (st M : ScanState) (l : List Char) (rest : List (List Char))
    (inv : ScanInv st (l :: rest))
    (hg : ∀ s, M.d.markers.get s = st.d.markers.get s)
    (hcs : M.currentSection = st.currentSection)
    (hh1 : M.d.markers.header.start ≤ M.d.markers.header.endL)
    (hh2 : M.d.markers.header.endL ≤ M.lineIdx)
    (hli : st.lineIdx ≤ M.lineIdx) :
    ScanInv M rest := by
  obtain ⟨ih1, ih2, ihs⟩ := inv
  refine ⟨hh1, hh2, fun s => ?_⟩
  obtain ⟨c1, c2, c3, c4, c5⟩ := ihs s
  rw [hg s, hcs]
  exact ⟨c1, c2, fun hs => le_trans (c3 hs) hli, c4,
    budget_transfer l rest _ _ _ c5 (fun hs => Or.inl hs)⟩

theorem stepLine_chain_branch (st M : ScanState) (l : List Char) (rest : List (List Char))
    (inv : ScanInv st (l :: rest))
    (hpb : (l.any fun c => c = Char.ofNat 12) = false)
    (hne : (trimChars l).isEmpty = false)
    (hg : ∀ s, M.d.markers.get s = st.d.markers.get s)
    (hcs : M.currentSection = st.currentSection)
    (hh1 : M.d.markers.header.start ≤ M.d.markers.header.endL)
    (hh2 : M.d.markers.header.endL ≤ st.lineIdx + 1)
    (hli : M.lineIdx = st.lineIdx + 1) :
    ScanInv (stepContent (stepSubsection (stepSection
      (stepAbstract M l (trimChars l) (st.lineIdx + 1)) (trimChars l) (st.lineIdx + 1))
      (trimChars l)) (trimChars l)) rest := by
  obtain ⟨pre1, pre2⟩ := pre_facts st M l rest inv hg hcs
  have hb : SectInvB M (st.lineIdx + 1 - 1) := by
    rw [Nat.add_sub_cancel]
    exact pre1
  obtain ⟨hc1, hc2, hc3⟩ := chain_inv M l (trimChars l) (st.lineIdx + 1) rfl hpb hne
    (Nat.succ_le_succ (Nat.zero_le _)) hb pre2
  obtain ⟨_, _, ihs⟩ := inv
  refine ⟨?_, ?_, fun s => ?_⟩
  · rw [hc3]
    exact hh1
  · rw [hc3, chainSteps_lineIdx, hli]
    exact hh2
  · obtain ⟨d1, d2, d3, d4⟩ := hc1 s
    refine ⟨d1, d2, fun hs => ?_, d4, ?_⟩
    · rw [chainSteps_lineIdx, hli]
      exact d3 hs
    · refine budget_transfer l rest _ _ _ (ihs s).2.2.2.2 (fun hs => ?_)
      rcases hc2 s hs with hx | hx
      · rw [hg s] at hx
        exact Or.inl hx
      · exact Or.inr hx

theorem stepLine_abs_branch (st M : ScanState) (l : List Char) (rest : List (List Char))
    (inv : ScanInv st (l :: rest))
    (hpb : (l.any fun c => c = Char.ofNat 12) = false)
    (hne : (trimChars l).isEmpty = false)
    (hg : ∀ s, M.d.markers.get s = st.d.markers.get s)
    (hcs : M.currentSection = st.currentSection)
    (hh1 : M.d.markers.header.start ≤ M.d.markers.header.endL)
    (hh2 : M.d.markers.header.endL ≤ st.lineIdx + 1)
    (hli : M.lineIdx = st.lineIdx + 1) :
    ScanInv (stepAbstract M l (trimChars l) (st.lineIdx + 1)) rest := by
  obtain ⟨pre1, pre2⟩ := pre_facts st M l rest inv hg hcs
  have hb : SectInvB M (st.lineIdx + 1 - 1) := by
    rw [Nat.add_sub_cancel]
    exact pre1
  obtain ⟨hc1, hc2, hc3⟩ := stepAbstract_inv M l (trimChars l) (st.lineIdx + 1) rfl hpb hne
    (Nat.succ_le_succ (Nat.zero_le _)) hb pre2
  obtain ⟨_, _, ihs⟩ := inv
  refine ⟨?_, ?_, fun s => ?_⟩
  · rw [hc3]
    exact hh1
  · rw [hc3, stepAbstract_lineIdx, hli]
    exact hh2
  · obtain ⟨d1, d2, d3, d4⟩ := hc1 s
    refine ⟨d1, d2, fun hs => ?_, d4, ?_⟩
    · rw [stepAbstract_lineIdx, hli]
      exact d3 hs
    · refine budget_transfer l rest _ _ _ (ihs s).2.2.2.2 (fun hs => ?_)
      rcases hc2 s hs with hx | hx
      · rw [hg s] at hx
        exact Or.inl hx
      · exact Or.inr hx

theorem afterTitleFlow_slug (st : ScanState) (r t : List Char) (n : Nat)
    (hcond : (st.d.title.isSome && decide (n = st.d.markers.title + 1)) = true) :
    afterTitleFlow st r t n
      = (st.updData (fun d => { d with slug := some (String.mk t) })).updMarkers
          (fun m => { m with slug := n }) := by
  unfold afterTitleFlow
  rw [if_pos hcond]

theorem afterTitleFlow_not_slug (st : ScanState) (r t : List Char) (n : Nat)
    (hcond : ¬(st.d.title.isSome && decide (n = st.d.markers.title + 1)) = true) :
    afterTitleFlow st r t n
      = stepContent (stepSubsection (stepSection (stepAbstract st r t n) t n) t) t := by
  unfold afterTitleFlow
  rw [if_neg hcond]

theorem stepLine_atf_branch (st M : ScanState) (l : List Char) (rest : List (List Char))
    (inv : ScanInv st (l :: rest))
    (hpb : (l.any fun c => c = Char.ofNat 12) = false)
    (hne : (trimChars l).isEmpty = false)
    (hg : ∀ s, M.d.markers.get s = st.d.markers.get s)
    (hcs : M.currentSection = st.currentSection)
    (hh1 : M.d.markers.header.start ≤ M.d.markers.header.endL)
    (hh2 : M.d.markers.header.endL ≤ st.lineIdx + 1)
    (hli : M.lineIdx = st.lineIdx + 1) :
    ScanInv (afterTitleFlow M l (trimChars l) (st.lineIdx + 1)) rest := by
  by_cases hcond : (M.d.title.isSome
      && decide ((st.lineIdx + 1) = M.d.markers.title + 1)) = true
  · rw [afterTitleFlow_slug M l (trimChars l) _ hcond]
    refine stepLine_id_branch st _ l rest inv ?_ ?_ ?_ ?_ ?_
    · exact fun s => Eq.trans (markersGet_slug_update _ _ s) (hg s)
    · exact hcs
    · exact hh1
    · have hx : M.d.markers.header.endL ≤ M.lineIdx := by
        rw [hli]
        exact hh2
      exact hx
    · have hx : st.lineIdx ≤ M.lineIdx := by
        rw [hli]
        exact Nat.le_succ _
      exact hx
  · rw [afterTitleFlow_not_slug M l (trimChars l) _ hcond]
    exact stepLine_chain_branch st M l rest inv hpb hne hg hcs hh1 hh2 hli

theorem scanInv_step (sh : String → Option String) (st : ScanState) (l : List Char)
    (rest : List (List Char)) (st' : ScanState)
    (h : stepLine sh st l = .ok st')
    (inv : ScanInv st (l :: rest)) : ScanInv st' rest := by
  have ih1 := inv.1
  have ih2 := inv.2.1
  simp only [stepLine] at h
  split at h
  · -- page-break line
    cases h
    refine stepLine_id_branch st _ l rest inv (fun s => rfl) rfl ih1
      (le_trans ih2 (Nat.le_succ _)) (Nat.le_succ _)
  · rename_i hpbN
    have hpb : (l.any fun c => c = Char.ofNat 12) = false := by
      revert hpbN
      cases (l.any fun c => c = Char.ofNat 12) <;> simp
    split at h
    · -- blank line
      cases h
      refine stepLine_id_branch st _ l rest inv (fun s => rfl) rfl ih1
        (le_trans ih2 (Nat.le_succ _)) (Nat.le_succ _)
    · rename_i hempN
      have hne : (trimChars l).isEmpty = false := by
        revert hempN
        cases (trimChars l).isEmpty <;> simp
      split at h
      · -- first header line
        split at h
        · cases h
        · cases h
          refine stepLine_id_branch st _ l rest inv
            (fun s => Eq.trans (markersGet_header_update _ _ s) rfl) rfl
            (le_refl _) (le_refl _) (Nat.le_succ _)
      · split at h
        · split at h
          · -- the title line
            cases h
            refine stepLine_atf_branch st _ l rest inv hpb hne
              (fun s => Eq.trans (markersGet_header_title_update _ _ _ s) rfl) rfl
              ih1 (le_trans ih2 (Nat.le_succ _)) rfl
          · split at h
            · cases h
            · -- header-field line
              rename_i st4 heq
              cases h
              have frame := headerFieldStep_frame sh _ l (trimChars l) (st.lineIdx + 1) st4 heq
              refine stepLine_abs_branch st st4 l rest inv hpb hne
                (fun s => Eq.trans (frame.1 s) rfl)
                (Eq.trans frame.2.2.2.2.2.2.1 rfl) ?_ ?_
                (Eq.trans frame.2.2.2.2.2.2.2 rfl)
              · rw [frame.2.1, frame.2.2.2.1]
                exact le_trans ih1 (le_trans ih2 (Nat.le_succ _))
              · rw [frame.2.2.2.1]
        · -- past the header: regular line
          cases h
          refine stepLine_atf_branch st _ l rest inv hpb hne (fun s => rfl) rfl
            ih1 (le_trans ih2 (Nat.le_succ _)) rfl

theorem scanInv_run (sh : String → Option String) (ls : List (List Char)) :
    ∀ st st', runTxtLines sh st ls = .ok st' → ScanInv st ls → ScanInv st' [] := by
  induction ls with
  | nil =>
    intro st st' h hinv
    simp only [runTxtLines] at h
    cases h
    exact hinv
  | cons l ls ih =>
    intro st st' h hinv
    simp only [runTxtLines] at h
    cases hsl : stepLine sh st l with
    | error e => rw [hsl] at h; cases h
    | ok st1 =>
      rw [hsl] at h
      exact ih st1 st' h (scanInv_step sh st l ls st1 hsl hinv)

theorem scanInv_init (subIdx : Nat) (ls : List (List Char))
    (hcount : ∀ s : SectionId, ls.countP (fun l => opensSection l s) ≤ 1) :
    ScanInv ({ subLastIndex := subIdx } : ScanState) ls := by
  refine ⟨le_refl _, le_refl _, fun s => ?_⟩
  have hg : (({ subLastIndex := subIdx } : ScanState).d.markers.get s) = ({} : SectMarker) := by
    cases s <;> rfl
  rw [hg]
  refine ⟨?_, ?_, ?_, ?_, ?_⟩
  · intro hc
    exact absurd hc (by decide)
  · intro hc
    exact absurd hc (by decide)
  · intro hs
    exact absurd rfl hs
  · intro hcur
    exact Option.noConfusion hcur
  · rw [if_neg (fun hs => hs rfl)]
    exact hcount s

theorem finalCloseScan_get (st : ScanState) (s : SectionId) :
    ((finalCloseScan st).d.markers.get s)
      = if st.currentSection = some s ∧ ¬(st.d.markers.get s).closed = true
        then { st.d.markers.get s with endL := st.lineIdx, closed := true }
        else st.d.markers.get s := by
  cases hcs : st.currentSection with
  | none =>
    rw [if_neg (fun hcon => Option.noConfusion hcon.1)]
    unfold finalCloseScan
    rw [hcs]
  | some cs =>
    by_cases hscs : s = cs
    · subst hscs
      cases hx : (st.d.markers.get s).closed with
      | true =>
        rw [if_neg (fun hcon => hcon.2 rfl)]
        unfold finalCloseScan
        rw [hcs]
        dsimp only
        have hb : ¬(!(st.d.markers.get s).closed) = true := by
          rw [hx]
          exact Bool.false_ne_true
        rw [if_neg hb]
      | false =>
        rw [if_pos ⟨rfl, Bool.false_ne_true⟩]
        unfold finalCloseScan
        rw [hcs]
        dsimp only
        have hb : (!(st.d.markers.get s).closed) = true := by
          rw [hx]
          rfl
        rw [if_pos hb]
        simp [ScanState.updMarkers, ScanState.updData, markersGet_set_self]
    · rw [if_neg (fun hcon => hscs (Option.some.inj hcon.1).symm)]
      unfold finalCloseScan
      rw [hcs]
      dsimp only
      split_ifs with h1
      · simp [ScanState.updMarkers, ScanState.updData, markersGet_set_ne _ _ _ _ hscs]
      · rfl

theorem closeCurrentSection_close_trans (M : ScanState) (n : Nat) (s : SectionId)
    (hc : (M.d.markers.get s).closed = false)
    (hc2 : ((closeCurrentSection M n).d.markers.get s).closed = true) :
    ((closeCurrentSection M n).d.markers.get s).endL = n - 1 := by
  rcases closeCurrentSection_cases M n with ⟨hid, _⟩ | ⟨cs, hcs, hncl, hcl⟩
  · rw [hid] at hc2
    exact absurd (hc.symm.trans hc2) Bool.false_ne_true
  · by_cases hscs : s = cs
    · subst hscs
      rw [hcl]
      simp [ScanState.updMarkers, ScanState.updData, markersGet_set_self]
    · rw [hcl] at hc2
      simp only [ScanState.updMarkers, ScanState.updData,
        markersGet_set_ne _ _ _ _ hscs] at hc2
      exact absurd (hc.symm.trans hc2) Bool.false_ne_true

theorem closeCurrentSection_closed_preserve (M : ScanState) (n : Nat) (s : SectionId)
    (hcl : (M.d.markers.get s).closed = true) :
    (closeCurrentSection M n).d.markers.get s = M.d.markers.get s := by
  rcases closeCurrentSection_cases M n with ⟨hid, _⟩ | ⟨cs, hcs, hncl, hclo⟩
  · rw [hid]
  · have hscs : s ≠ cs := by
      intro hcon
      subst hcon
      rw [hcl] at hncl
      cases hncl
    rw [hclo]
    simp [ScanState.updMarkers, ScanState.updData, markersGet_set_ne _ _ _ _ hscs]

theorem stepSection_closed_endL_preserve (M1 : ScanState) (t : List Char) (n : Nat)
    (s : SectionId) (hcl : (M1.d.markers.get s).closed = true) :
    ((stepSection M1 t n).d.markers.get s).endL = (M1.d.markers.get s).endL ∧
    ((stepSection M1 t n).d.markers.get s).closed = true := by
  by_cases hgate : (sectionPatternTest t || authorSectionTest t) = true
  · rcases hm : findSectionMatcher t with _ | s₀
    · have hstep : stepSection M1 t n = { closeCurrentSection M1 n with currentSection := none } := by
        simp [stepSection, hgate, hm]
      rw [hstep, show (({ closeCurrentSection M1 n with currentSection := none } :
          ScanState).d.markers.get s) = (closeCurrentSection M1 n).d.markers.get s from rfl,
        closeCurrentSection_closed_preserve M1 n s hcl]
      exact ⟨rfl, hcl⟩
    · have hstep : stepSection M1 t n = openMatchedSection (closeCurrentSection M1 n) s₀ n := by
        simp [stepSection, hgate, hm]
      rw [hstep]
      by_cases hss : s = s₀
      · subst hss
        rw [openMatchedSection_get_self, closeCurrentSection_closed_preserve M1 n s hcl]
        exact ⟨rfl, hcl⟩
      · rw [openMatchedSection_get_ne _ _ _ _ hss,
          closeCurrentSection_closed_preserve M1 n s hcl]
        exact ⟨rfl, hcl⟩
  · have hstep : stepSection M1 t n = M1 := by
      simp [stepSection, hgate]
    rw [hstep]
    exact ⟨rfl, hcl⟩

theorem stepSection_close_trans (M1 : ScanState) (t : List Char) (n : Nat) (s : SectionId)
    (hc : (M1.d.markers.get s).closed = false)
    (hc2 : ((stepSection M1 t n).d.markers.get s).closed = true) :
    ((stepSection M1 t n).d.markers.get s).endL = n - 1 := by
  by_cases hgate : (sectionPatternTest t || authorSectionTest t) = true
  · rcases hm : findSectionMatcher t with _ | s₀
    · have hstep : stepSection M1 t n = { closeCurrentSection M1 n with currentSection := none } := by
        simp [stepSection, hgate, hm]
      rw [hstep] at hc2 ⊢
      exact closeCurrentSection_close_trans M1 n s hc hc2
    · have hstep : stepSection M1 t n = openMatchedSection (closeCurrentSection M1 n) s₀ n := by
        simp [stepSection, hgate, hm]
      rw [hstep] at hc2 ⊢
      by_cases hss : s = s₀
      · subst hss
        rw [openMatchedSection_get_self] at hc2 ⊢
        exact closeCurrentSection_close_trans M1 n s hc hc2
      · rw [openMatchedSection_get_ne _ _ _ _ hss] at hc2 ⊢
        exact closeCurrentSection_close_trans M1 n s hc hc2
  · have hstep : stepSection M1 t n = M1 := by
      simp [stepSection, hgate]
    rw [hstep] at hc2
    exact absurd (hc.symm.trans hc2) Bool.false_ne_true

theorem stepAbstract_close_trans (M : ScanState) (r t : List Char) (n : Nat) (s : SectionId)
    (hc : (M.d.markers.get s).closed = false)
    (hc2 : ((stepAbstract M r t n).d.markers.get s).closed = true) :
    ((stepAbstract M r t n).d.markers.get s).endL = n - 1 := by
  rcases stepAbstract_cases M r t n with ⟨_, heq⟩ | ⟨_, _, _, heq⟩ | heq
  · rw [heq] at hc2
    by_cases hsa : s = SectionId.abstract
    · subst hsa
      have : ((openAbstract M n).d.markers.get SectionId.abstract).closed
          = (M.d.markers.get SectionId.abstract).closed := rfl
      rw [this] at hc2
      exact absurd (hc.symm.trans hc2) Bool.false_ne_true
    · rw [openAbstract_get_ne M n s hsa] at hc2
      exact absurd (hc.symm.trans hc2) Bool.false_ne_true
  · rw [heq] at hc2 ⊢
    by_cases hsa : s = SectionId.abstract
    · subst hsa
      rfl
    · rw [closeAbstract_get_ne M n s hsa] at hc2
      exact absurd (hc.symm.trans hc2) Bool.false_ne_true
  · rw [heq] at hc2
    exact absurd (hc.symm.trans hc2) Bool.false_ne_true

theorem chain_close_trans (M : ScanState) (r t : List Char) (n : Nat) (s : SectionId)
    (hc : (M.d.markers.get s).closed = false)
    (hc2 : ((stepContent (stepSubsection (stepSection (stepAbstract M r t n) t n) t)
        t).d.markers.get s).closed = true) :
    ((stepContent (stepSubsection (stepSection (stepAbstract M r t n) t n) t)
        t).d.markers.get s).endL = n - 1 := by
  have hmark : (stepContent (stepSubsection (stepSection (stepAbstract M r t n) t n) t)
      t).d.markers = (stepSection (stepAbstract M r t n) t n).d.markers := by
    rw [stepContent_markers, stepSubsection_d]
  rw [hmark] at hc2 ⊢
  by_cases hcm1 : ((stepAbstract M r t n).d.markers.get s).closed = true
  · have h1 := stepAbstract_close_trans M r t n s hc hcm1
    have h2 := stepSection_closed_endL_preserve (stepAbstract M r t n) t n s hcm1
    rw [h2.1, h1]
  · have hcm1f : ((stepAbstract M r t n).d.markers.get s).closed = false := by
      cases hx : ((stepAbstract M r t n).d.markers.get s).closed
      · rfl
      · exact absurd hx hcm1
    exact stepSection_close_trans (stepAbstract M r t n) t n s hcm1f hc2

theorem afterTitleFlow_close_trans (M : ScanState) (r t : List Char) (n : Nat) (s : SectionId)
    (hc : (M.d.markers.get s).closed = false)
    (hc2 : ((afterTitleFlow M r t n).d.markers.get s).closed = true) :
    ((afterTitleFlow M r t n).d.markers.get s).endL = n - 1 := by
  by_cases hcond : (M.d.title.isSome && decide (n = M.d.markers.title + 1)) = true
  · rw [afterTitleFlow_slug M r t n hcond] at hc2
    simp only [ScanState.updMarkers, ScanState.updData, markersGet_slug_update] at hc2
    exact absurd (hc.symm.trans hc2) Bool.false_ne_true
  · rw [afterTitleFlow_not_slug M r t n hcond] at hc2 ⊢
    exact chain_close_trans M r t n s hc hc2

theorem stepLine_close_trans (sh : String → Option String) (st : ScanState) (l : List Char)
    (st' : ScanState) (h : stepLine sh st l = .ok st') (s : SectionId)
    (hc : (st.d.markers.get s).closed = false)
    (hc2 : (st'.d.markers.get s).closed = true) :
    (st'.d.markers.get s).endL = st.lineIdx := by
  simp only [stepLine] at h
  split at h
  · cases h
    exact absurd (hc.symm.trans hc2) Bool.false_ne_true
  · split at h
    · cases h
      exact absurd (hc.symm.trans hc2) Bool.false_ne_true
    · split at h
      · split at h
        · cases h
        · cases h
          simp only [ScanState.updMarkers, ScanState.updData, ScanState.updHeader,
            extractLineRefs_markers, markersGet_header_update] at hc2
          exact absurd (hc.symm.trans hc2) Bool.false_ne_true
      · split at h
        · split at h
          · cases h
            refine Eq.trans (afterTitleFlow_close_trans _ l (trimChars l)
              (st.lineIdx + 1) s ?_ hc2) rfl
            simp only [ScanState.updMarkers, ScanState.updData, extractLineRefs_markers,
              markersGet_header_title_update]
            exact hc
          · split at h
            · cases h
            · rename_i st4 heq
              cases h
              have frame := headerFieldStep_frame sh _ l (trimChars l) (st.lineIdx + 1) st4 heq
              refine Eq.trans (stepAbstract_close_trans st4 l (trimChars l)
                (st.lineIdx + 1) s ?_ hc2) rfl
              rw [frame.1 s]
              exact hc
        · cases h
          refine Eq.trans (afterTitleFlow_close_trans _ l (trimChars l)
            (st.lineIdx + 1) s ?_ hc2) rfl
          exact hc

/-- **C8** (amended): a section marker transitions to closed mid-parse
only with its end set to the previous line, and at end-of-input only
with its end set to the last line read; and in any parse of a document
in which no section heading opens the same section twice, every closed
marker satisfies `end >= start`.  (Without the at-most-once hypothesis
the property fails: a reopened section keeps its stale closed flag and
end line, giving `end < start`.) -/
theorem c8_amended_marker_close_invariant :
    (∀ sh st l st', stepLine sh st l = .ok st' → ∀ s : SectionId,
        (st.d.markers.get s).closed = false →
        (st'.d.markers.get s).closed = true →
        (st'.d.markers.get s).endL = st.lineIdx) ∧
    (∀ st : ScanState, ∀ s : SectionId,
        (st.d.markers.get s).closed = false →
        ((finalCloseScan st).d.markers.get s).closed = true →
        ((finalCloseScan st).d.markers.get s).endL = st.lineIdx) ∧
    (∀ sh txt d, parseTxt sh txt = .ok d →
        (∀ s : SectionId, (splitLines txt.toList).countP (fun l => opensSection l s) ≤ 1) →
        ∀ s : SectionId, (d.markers.get s).closed = true →
          (d.markers.get s).start ≤ (d.markers.get s).endL) := by
  refine ⟨?_, ?_, ?_⟩
  · intro sh st l st' h s hc hc2
    exact stepLine_close_trans sh st l st' h s hc hc2
  · intro st s hc hc2
    rw [finalCloseScan_get] at hc2 ⊢
    split_ifs at hc2 ⊢ with hcond
    · rfl
    · exact absurd (hc.symm.trans hc2) Bool.false_ne_true
  · intro sh txt d h hcount s hclosed
    unfold parseTxt parseTxtSt at h
    cases hrun : runTxtLines sh { subLastIndex := 0 } (splitLines txt.toList) with
    | error e =>
      rw [hrun] at h
      exact absurd h (by simp [Except.map])
    | ok stf =>
      rw [hrun] at h
      simp only [Except.map, Except.ok.injEq] at h
      have hinv := scanInv_run sh (splitLines txt.toList) _ _ hrun (scanInv_init 0 _ hcount)
      obtain ⟨_, _, ihs⟩ := hinv
      rw [← h] at hclosed ⊢
      rw [finalCloseScan_get] at hclosed ⊢
      split_ifs at hclosed ⊢ with hcond
      · have h4 := (ihs s).2.2.2.1 hcond.1
        exact (ihs s).2.2.1 h4
      · exact (ihs s).1 hclosed

theorem c8_amended_marker_close_invariant_witness :
    (c8StA.d.markers.get SectionId.abstract).closed = false ∧
    (c8StB.d.markers.get SectionId.abstract).closed = true ∧
    (c8StB.d.markers.get SectionId.abstract).endL = 6 ∧
    ((finalCloseScan c8StC).d.markers.get SectionId.introduction).endL = 8 ∧
    (c8Data.markers.get SectionId.abstract).closed = true ∧
    (c8Data.markers.get SectionId.abstract).start ≤ (c8Data.markers.get SectionId.abstract).endL := by
  obtain ⟨p1, p2, p3⟩ := c8_amended_marker_close_invariant
  refine ⟨rfl, rfl, ?_, ?_, rfl, ?_⟩
  · exact p1 statusHierStub c8StA ("1. Introduction".toList) c8StB rfl SectionId.abstract rfl rfl
  · exact p2 c8StC SectionId.introduction rfl rfl
  · exact p3 statusHierStub c8WitnessIn c8Data rfl (by intro s; cases s <;> decide)
      SectionId.abstract rfl
